import Mathlib

/-!
Verification of the review-analytics pipeline of `uxtools-playanalysis`
against its natural-language specification.

The development shallowly embeds the TypeScript sources
`src/app/services/server/analysis.server.ts`,
`src/app/services/server/aggregation.server.ts` and the classification
service (`src/unnamed/part_005`, i.e. `classification.server.ts`).
JavaScript numbers are modelled as exact rationals `ℚ` (integer star
scores as `ℤ`), JavaScript strings as Lean `String`s over their code
points (the texts at issue are ASCII), `Record`/`Map` objects as
insertion-ordered association lists, and the two transcendental
primitives the code uses, `Math.log` and `Math.sqrt`, as explicit
function parameters `log sqrt : ℚ → ℚ` of the definitions that need
them (every theorem below either holds for all values of these
parameters or assumes only `log 1 = 0`, which holds for the real
logarithm and for `Math.log` exactly, since `Math.log(1) = +0`).
-/

namespace PlayAnalysis

/-! ## JavaScript string primitives -/

/-- Character class of the regex `\w`: ASCII letters, digits and `_`. -/
def isWordCharJS (c : Char) : Bool :=
  c.isAlpha || c.isDigit || c = '_'

/-- Character class of the regex `\s` (the ASCII part). -/
def isSpaceJS (c : Char) : Bool :=
  c = ' ' || c = '\t' || c = '\n' || c = '\r' || c = '\x0b' || c = '\x0c'

/-- Splits a character list at runs of characters satisfying `sep`,
dropping empty pieces. `String.prototype.split` on a separator regex
such as `/\s+/` can also emit an empty leading piece (when the string
starts with a separator); every caller in the source filters the pieces
by a positive length bound, so dropping empties is equivalent. -/
def splitDrop (sep : Char → Bool) : List Char → List Char → List String
  | cur, [] => if cur.isEmpty then [] else [String.mk cur.reverse]
  | cur, c :: cs =>
    if sep c then
      if cur.isEmpty then splitDrop sep [] cs
      else String.mk cur.reverse :: splitDrop sep [] cs
    else splitDrop sep (c :: cur) cs

/-- Model of `String.prototype.toLowerCase` (ASCII range; the lexicons,
phrase tables and all concrete inputs below are ASCII). -/
def jsToLower (s : String) : String :=
  String.mk (s.toList.map Char.toLower)

/-- Does `hay` start with `needle` (on code points)? -/
def startsWithChars : List Char → List Char → Bool
  | _, [] => true
  | [], _ :: _ => false
  | a :: as, b :: bs => a = b && startsWithChars as bs

/-- Model of `String.prototype.includes`: contiguous-substring test. -/
def charsContain : List Char → List Char → Bool
  | [], needle => needle.isEmpty
  | h :: t, needle => startsWithChars (h :: t) needle || charsContain t needle

/-- `hay.includes(needle)` of the source, on Lean strings. -/
def jsIncludes (hay needle : String) : Bool :=
  charsContain hay.toList needle.toList

/-- JavaScript `n || d` on a number already known to be defined:
`0` is falsy and yields the default. -/
def jsOrNat (n d : ℕ) : ℕ :=
  if n = 0 then d else n

/-- JavaScript `q || d` on a (rational-modelled) number: `0` is falsy. -/
def jsOrRat (q d : ℚ) : ℚ :=
  if q = 0 then d else q

/-- JavaScript `s || d` on an optional string: `undefined` and the
empty string are falsy and yield the default. -/
def jsOrString (o : Option String) (d : String) : String :=
  match o with
  | none => d
  | some s => if s = "" then d else s

/-- JavaScript `n || d` on an optional number: `undefined` and `0` are
falsy and yield the default. -/
def jsOrInt (o : Option ℤ) (d : ℤ) : ℤ :=
  match o with
  | none => d
  | some n => if n = 0 then d else n

/-!
## Tokenizer of `ReviewAnalysisService` (analysis.server.ts, lines 184-190)

`text.toLowerCase().replace(/[^\w\s]/g, ' ').split(/\s+/)` with empty
tokens filtered out.
-/

/-- `ReviewAnalysisService.tokenize`. -/
def tokenize (text : String) : List String :=
  splitDrop isSpaceJS []
    (((jsToLower text).toList).map fun c =>
      if isWordCharJS c || isSpaceJS c then c else ' ')

/-!
## Sentiment lexicon and scorer (analysis.server.ts, lines 8-28, 197-219)
-/

/-- Sentiment category union type. -/
inductive Sentiment where
  | positive
  | negative
  | neutral
deriving DecidableEq, Repr

/-- The AFINN-style `SENTIMENT_LEXICON` table, verbatim from the source;
the `Record<string, number>` is modelled as an association list. -/
def SENTIMENT_LEXICON : List (String × ℤ) :=
  [("good", 3), ("great", 4), ("awesome", 5), ("excellent", 5), ("amazing", 5),
   ("love", 4), ("perfect", 5), ("best", 5), ("helpful", 3), ("fantastic", 5),
   ("wonderful", 4), ("superb", 5), ("brilliant", 5), ("outstanding", 5),
   ("easy", 2), ("nice", 3), ("better", 2), ("recommend", 4), ("worth", 3),
   ("beautiful", 3), ("fast", 2), ("simple", 2), ("clean", 2), ("useful", 3),
   ("happy", 3), ("enjoy", 3), ("fun", 3), ("cool", 3), ("impressive", 4),
   ("smooth", 3), ("intuitive", 3), ("convenient", 3), ("reliable", 3),
   ("bad", -3), ("poor", -3), ("terrible", -5), ("awful", -5), ("horrible", -5),
   ("worst", -5), ("waste", -3), ("useless", -3), ("disappointed", -4),
   ("frustrating", -4), ("annoying", -3), ("slow", -2), ("crash", -4), ("bug", -3),
   ("error", -3), ("issue", -2), ("problem", -2), ("difficult", -2), ("confusing", -3),
   ("expensive", -2), ("hate", -4), ("boring", -3), ("ugly", -3), ("complicated", -3),
   ("broken", -4), ("fail", -3), ("fails", -3), ("failed", -3), ("failure", -3),
   ("glitch", -3), ("stuck", -3), ("freezes", -3), ("freeze", -3), ("froze", -3),
   ("laggy", -3), ("lag", -3), ("lags", -3), ("ads", -2), ("advertisement", -2)]

/-- `ReviewAnalysisService.analyzeSentiment`: fold over the tokens of
`text.toLowerCase()`, accumulating the lexicon weight and the count of
matched tokens; the value is weight over count (`0` on no match) and
the category is thresholded at `±0.2`. -/
def analyzeSentiment (text : String) : ℚ × Sentiment :=
  let tokens := tokenize (jsToLower text)
  let acc : ℤ × ℕ := tokens.foldl
    (fun p t =>
      match SENTIMENT_LEXICON.lookup t with
      | some w => (p.1 + w, p.2 + 1)
      | none => p)
    (0, 0)
  let normalizedScore : ℚ := if acc.2 > 0 then (acc.1 : ℚ) / (acc.2 : ℚ) else 0
  let category : Sentiment :=
    if normalizedScore > 2/10 then .positive
    else if normalizedScore < -(2/10) then .negative
    else .neutral
  (normalizedScore, category)

/-- The lexicon weights of the matched tokens of a text, stated the way
the specification describes them (a token matches when it is a key of
the sentiment lexicon). -/
def matchedLexiconWeights (text : String) : List ℤ :=
  (tokenize (jsToLower text)).filterMap fun t => SENTIMENT_LEXICON.lookup t

/-- The specification's categorisation, a pure function of the value:
positive iff the value exceeds `0.2`, negative iff it is below `-0.2`,
neutral otherwise. -/
def sentimentCategoryOf (v : ℚ) : Sentiment :=
  if v > 2/10 then .positive
  else if v < -(2/10) then .negative
  else .neutral

lemma analyzeSentiment_foldl (ts : List String) (s : ℤ) (n : ℕ) :
    ts.foldl
      (fun p t =>
        match SENTIMENT_LEXICON.lookup t with
        | some w => (p.1 + w, p.2 + 1)
        | none => p)
      (s, n)
    = (s + (ts.filterMap fun t => SENTIMENT_LEXICON.lookup t).sum,
       n + (ts.filterMap fun t => SENTIMENT_LEXICON.lookup t).length) := by
  induction ts generalizing s n with
  | nil => simp
  | cons h t ih =>
    simp only [List.foldl_cons, List.filterMap_cons]
    cases hl : SENTIMENT_LEXICON.lookup h with
    | none => simpa using ih s n
    | some w =>
      simp only [hl, ih (s + w) (n + 1), List.sum_cons, List.length_cons]
      rw [Prod.mk.injEq]
      exact ⟨by ring, by omega⟩

/-- C1. The lexicon sentiment scorer returns the mean lexicon weight of
matched tokens (`0` on zero matches, including empty text, with no
error possible: the function is total), and the category is the pure
threshold function of the value; in particular a text with no lexicon
match scores `(0, neutral)`. -/
theorem C1_sentiment_mean_and_threshold (text : String) :
    ((analyzeSentiment text).1 =
      if (matchedLexiconWeights text).length = 0 then 0
      else ((matchedLexiconWeights text).sum : ℚ) / ((matchedLexiconWeights text).length : ℚ))
    ∧ (analyzeSentiment text).2 = sentimentCategoryOf (analyzeSentiment text).1
    ∧ (matchedLexiconWeights text = [] →
        analyzeSentiment text = (0, Sentiment.neutral)) := by
  have hfold := analyzeSentiment_foldl (tokenize (jsToLower text)) 0 0
  refine ⟨?_, ?_, ?_⟩
  · show (let tokens := tokenize (jsToLower text); _) = _
    simp only [analyzeSentiment, hfold, matchedLexiconWeights, zero_add, Nat.zero_add]
    rcases Nat.eq_zero_or_pos
        ((tokenize (jsToLower text)).filterMap
          (fun t => SENTIMENT_LEXICON.lookup t)).length with h0 | hpos
    · simp [h0]
    · simp [hpos, hpos.ne']
  · simp only [analyzeSentiment, sentimentCategoryOf]
  · intro hnil
    simp only [matchedLexiconWeights] at hnil
    simp only [analyzeSentiment, hfold, hnil]
    norm_num [Prod.ext_iff]

/-!
## Dates: a UTC model of the JavaScript `Date`

The aggregator walks calendar periods backward from "now" with
`setDate`/`setMonth`/`setFullYear` and formats period keys from
`getFullYear`/`getMonth`/`getDate`/`getDay`/`toISOString`.  A date is
modelled as its day number since 1970-01-01 (time of day never enters
any period key, and the model is the UTC/fixed-offset reading of the
local-time accessors).  Field overflow (`April 31`) normalises exactly
as ECMAScript `MakeDay` does: a month count plus a day count, resolved
through the civil calendar.
-/

/-- Civil (year, month `1..12`, day) of a day number since 1970-01-01. -/
def civilFromDays (z : ℤ) : ℤ × ℤ × ℤ :=
  let z' := z + 719468
  let era := z'.fdiv 146097
  let doe := z' - era * 146097
  let yoe := (doe - doe.fdiv 1460 + doe.fdiv 36524 - doe.fdiv 146096).fdiv 365
  let y := yoe + era * 400
  let doy := doe - (365 * yoe + yoe.fdiv 4 - yoe.fdiv 100)
  let mp := (5 * doy + 2).fdiv 153
  let d := doy - (153 * mp + 2).fdiv 5 + 1
  let m := mp + (if mp < 10 then 3 else -9)
  (y + (if m ≤ 2 then 1 else 0), m, d)

/-- Day number since 1970-01-01 of a civil (year, month `1..12`, day). -/
def daysFromCivil (y m d : ℤ) : ℤ :=
  let y' := y - (if m ≤ 2 then 1 else 0)
  let era := y'.fdiv 400
  let yoe := y' - era * 400
  let doy := (153 * (m + (if m > 2 then -3 else 9)) + 2).fdiv 5 + d - 1
  let doe := yoe * 365 + yoe.fdiv 4 - yoe.fdiv 100 + doy
  era * 146097 + doe - 719468

/-- ECMAScript `MakeDay(year, month, date)` (month `0`-based, all
arguments arbitrary integers): the day number of the normalised date. -/
def jsMakeDay (year month day : ℤ) : ℤ :=
  daysFromCivil (year + month.fdiv 12) (month.emod 12 + 1) 1 + (day - 1)

/-- `Date.prototype.getFullYear` (UTC model). -/
def getFullYear (d : ℤ) : ℤ := (civilFromDays d).1

/-- `Date.prototype.getMonth` (UTC model, `0`-based). -/
def getMonth (d : ℤ) : ℤ := (civilFromDays d).2.1 - 1

/-- `Date.prototype.getDate` (UTC model, day of month). -/
def getDate (d : ℤ) : ℤ := (civilFromDays d).2.2

/-- `Date.prototype.getDay` (UTC model): 1970-01-01 was a Thursday. -/
def getDay (d : ℤ) : ℤ := (d + 4).emod 7

/-- `d.setDate(n)` as a value: same year and month, day field `n`. -/
def setDate (d n : ℤ) : ℤ := jsMakeDay (getFullYear d) (getMonth d) n

/-- `d.setMonth(m)` as a value: same year and day-of-month, month `m`. -/
def setMonth (d m : ℤ) : ℤ := jsMakeDay (getFullYear d) m (getDate d)

/-- `d.setFullYear(y)` as a value: same month and day-of-month, year `y`. -/
def setFullYear (d y : ℤ) : ℤ := jsMakeDay y (getMonth d) (getDate d)

/-- Left-pads the decimal digits of a nonnegative integer to width 2
(`String(n).padStart(2, '0')`). -/
def pad2 (n : ℤ) : String :=
  if n < 10 then "0" ++ toString n else toString n

/-- The date part of `Date.prototype.toISOString`,
`date.toISOString().split('T')[0]`. -/
def isoDateString (d : ℤ) : String :=
  let c := civilFromDays d
  toString c.1 ++ "-" ++ pad2 c.2.1 ++ "-" ++ pad2 c.2.2

/-!
## Analyzed comments (analysis.server.ts, lines 33-49)
-/

/-- Severity / priority / impact union type (`'low' | 'medium' | 'high'`). -/
inductive Level where
  | low
  | medium
  | high
deriving DecidableEq, Repr

/-- User segment union type. -/
inductive UserType where
  | new
  | power
  | returning
  | unknown
deriving DecidableEq, Repr

/-- The `AnalyzedComment` record.  `date` holds the parsed review date
(the source stores the ISO string `reviewDate.toISOString()` and every
consumer re-parses it; the model stores the day number and renders the
ISO date where the source prints the string).  Star scores are integers. -/
structure AnalyzedComment where
  id : String
  userName : String
  content : String
  score : ℤ
  thumbsUp : ℤ
  date : ℤ
  year : ℤ
  sentiment : Sentiment
  keywords : List String
  intentions : List String
  userType : UserType
  featureRequests : List String
  bugReports : List String
  competitorMentions : List String
  severity : Level
deriving DecidableEq, Repr

/-- Rendering of a sentiment category as the source's string literal. -/
def sentimentName : Sentiment → String
  | .positive => "positive"
  | .negative => "negative"
  | .neutral => "neutral"

/-!
## CSV export (aggregation.server.ts, lines 719-761)
-/

/-- Maps every code point of a string and concatenates the pieces. -/
def chConcatMap (f : Char → List Char) (l : List Char) : List Char :=
  l.flatMap f

/-- `s.replace(/c/g, rep)` for a single-character pattern `c`. -/
def jsReplaceAllChar (s : String) (c : Char) (rep : String) : String :=
  String.mk (chConcatMap (fun a => if a = c then rep.toList else [a]) s.toList)

/-- The content-field escaping of `generateExportData`:
`content.replace(/"/g, '""').replace(/,/g, '","')`. -/
def escapeCsvContent (s : String) : String :=
  jsReplaceAllChar (jsReplaceAllChar s '"' "\"\"") ',' "\",\""

/-- What the specification says the quirky escaping does, stated as a
single pass over the code points: a double quote becomes a doubled
double quote, a literal comma becomes the three characters `","`, and
every other character stays itself. -/
def csvEscapeSpecChar (c : Char) : List Char :=
  if c = '"' then ['"', '"']
  else if c = ',' then ['"', ',', '"']
  else [c]

/-- The header line of the CSV export, verbatim (`csvHeader`). -/
def csvHeaderLine : String :=
  "ID,User,Date,Score,Sentiment,Content,Intentions,Keywords\n"

/-- One data row of the CSV export (the `csvRows` mapper of
`generateExportData`). -/
def csvRow (c : AnalyzedComment) : String :=
  "\"" ++ c.id ++ "\",\"" ++ c.userName ++ "\",\"" ++ isoDateString c.date
    ++ "\"," ++ toString c.score ++ ",\"" ++ sentimentName c.sentiment
    ++ "\",\"" ++ escapeCsvContent c.content
    ++ "\",\"" ++ String.intercalate ";" c.intentions
    ++ "\",\"" ++ String.intercalate ";" c.keywords ++ "\""

/-- The CSV blob of `generateExportData`: the header line followed by
the rows joined with `\n`. -/
def generateExportCsv (comments : List AnalyzedComment) : String :=
  csvHeaderLine ++ String.intercalate "\n" (comments.map csvRow)

lemma chConcatMap_append (f : Char → List Char) (a b : List Char) :
    chConcatMap f (a ++ b) = chConcatMap f a ++ chConcatMap f b := by
  simp [chConcatMap]

lemma chConcatMap_cons (f : Char → List Char) (c : Char) (cs : List Char) :
    chConcatMap f (c :: cs) = f c ++ chConcatMap f cs := rfl

lemma chConcatMap_comp (f g : Char → List Char) (l : List Char) :
    chConcatMap g (chConcatMap f l)
      = chConcatMap (fun c => chConcatMap g (f c)) l := by
  induction l with
  | nil => rfl
  | cons c cs ih =>
    rw [chConcatMap_cons, chConcatMap_append, ih, chConcatMap_cons]

lemma escapeCsvContent_eq_spec (s : String) :
    escapeCsvContent s = String.mk (chConcatMap csvEscapeSpecChar s.toList) := by
  have hmk : ∀ l : List Char, (String.mk l).toList = l := fun l => rfl
  simp only [escapeCsvContent, jsReplaceAllChar, hmk]
  rw [chConcatMap_comp]
  refine congrArg String.mk ?_
  have hfun : (fun c => chConcatMap (fun a => if a = ',' then ['"', ',', '"'] else [a])
      (if c = '"' then ['"', '"'] else [c])) = csvEscapeSpecChar := by
    funext c
    by_cases h1 : c = '"'
    · subst h1; rfl
    · by_cases h2 : c = ','
      · subst h2; rfl
      · simp [chConcatMap, csvEscapeSpecChar, h1, h2]
  exact congrFun (congrArg chConcatMap hfun) s.toList

/-- C2. The CSV export blob is exactly the header line
`ID,User,Date,Score,Sentiment,Content,Intentions,Keywords` followed by
the data rows joined with newlines; there is exactly one data row per
analyzed comment (no comment is dropped); and inside the double-quoted
content field the escaping is exactly the quirky single pass that
doubles every double quote and turns every literal comma into the three
characters `","`. -/
theorem C2_csv_export_shape :
    (∀ comments : List AnalyzedComment,
        generateExportCsv comments
          = csvHeaderLine ++ String.intercalate "\n" (comments.map csvRow)
        ∧ (comments.map csvRow).length = comments.length)
    ∧ (∀ s : String,
        escapeCsvContent s = String.mk (chConcatMap csvEscapeSpecChar s.toList)) := by
  exact ⟨fun comments => ⟨rfl, comments.length_map csvRow⟩, escapeCsvContent_eq_spec⟩

/-!
## Intent pattern matcher (analysis.server.ts, lines 324-378)
-/

/-- The ordered `patterns` table of `detectIntentions`, verbatim.
`Object.entries` iterates the six string-keyed properties in insertion
order, which this list fixes explicitly. -/
def INTENTION_PATTERNS : List (String × List String) :=
  [("feature_request",
    ["add", "would be nice", "should have", "need", "missing", "please add",
     "would love", "wish it had", "could use", "hope you add", "suggestion",
     "feature request", "would be great if", "please implement", "consider adding"]),
   ("bug_report",
    ["bug", "crash", "error", "issue", "problem", "not working", "fix",
     "broken", "glitch", "freezes", "stuck", "doesn't work", "fails",
     "doesn't load", "force close", "keeps stopping", "won't open"]),
   ("praise",
    ["great", "awesome", "love", "excellent", "perfect", "amazing",
     "fantastic", "wonderful", "best", "good", "helpful", "useful",
     "impressive", "outstanding", "superb", "brilliant", "terrific"]),
   ("complaint",
    ["bad", "terrible", "poor", "waste", "disappointed", "awful",
     "horrible", "useless", "frustrating", "annoying", "worst",
     "hate", "sucks", "garbage", "rubbish", "pathetic", "joke"]),
   ("question",
    ["how do i", "how to", "can you", "is there", "does it", "will it",
     "when will", "why is", "where is", "what is", "?"]),
   ("comparison",
    ["better than", "worse than", "compared to", "similar to", "like",
     "unlike", "preferred", "instead of", "alternative", "competitor",
     "competition", "other apps", "other games", "rivals"])]

/-- `ReviewAnalysisService.detectIntentions`: every category whose
phrase list has a lowercased-substring hit is pushed, in table order;
on zero matches the sentiment category decides the fallback. -/
def detectIntentions (text : String) (sentiment : ℚ × Sentiment) : List String :=
  let lowerText := jsToLower text
  let intentions := INTENTION_PATTERNS.foldl
    (fun acc p => if p.2.any (fun k => jsIncludes lowerText k) then acc ++ [p.1] else acc)
    []
  if intentions.length = 0 then
    match sentiment.2 with
    | .positive => ["praise"]
    | .negative => ["complaint"]
    | .neutral => []
  else intentions

/-- The set (as the table-ordered list) of categories whose phrase list
has a lowercased-substring match in the text — the specification's
description of the matched categories. -/
def matchedIntentionCategories (text : String) : List String :=
  (INTENTION_PATTERNS.filter
    (fun p => p.2.any (fun k => jsIncludes (jsToLower text) k))).map Prod.fst

lemma foldl_pushIf {α β : Type} (q : α → Bool) (f : α → β) (l : List α) (acc : List β) :
    l.foldl (fun acc p => if q p then acc ++ [f p] else acc) acc
      = acc ++ (l.filter q).map f := by
  induction l generalizing acc with
  | nil => simp
  | cons h t ih =>
    by_cases hq : q h
    · simp [hq, ih]
    · simp [hq, ih]

/-- C7. Intent classification returns exactly the categories whose
phrase list matches the lowercased text as a substring; if and only if
that set is empty it falls back on sentiment — positive adds `praise`,
negative adds `complaint`, and neutral yields the empty intention set. -/
theorem C7_intentions_exact_match_or_fallback (text : String) (sentiment : ℚ × Sentiment) :
    detectIntentions text sentiment =
      if matchedIntentionCategories text = [] then
        (match sentiment.2 with
          | .positive => ["praise"]
          | .negative => ["complaint"]
          | .neutral => [])
      else matchedIntentionCategories text := by
  simp only [detectIntentions, matchedIntentionCategories, foldl_pushIf, List.nil_append,
    List.length_eq_zero]

/-!
## User segments, competitors, severity (analysis.server.ts, 170-177, 282-316, 459-502)
-/

/-- The `newUserPatterns` phrase list of `detectUserType`. -/
def NEW_USER_PATTERNS : List String :=
  ["just downloaded", "first time", "new to this", "recently started",
   "just started", "just installed", "new user", "beginner", "just got",
   "just beginning", "just trying", "first day", "first week"]

/-- The `powerUserPatterns` phrase list of `detectUserType`. -/
def POWER_USER_PATTERNS : List String :=
  ["long time user", "been using for years", "daily user", "power user",
   "premium user", "pro user", "expert", "advanced user", "loyal user",
   "using since", "for years", "heavy user", "regular user", "paid user"]

/-- The `returningUserPatterns` phrase list of `detectUserType`. -/
def RETURNING_USER_PATTERNS : List String :=
  ["came back", "returned to", "giving another try", "reinstalled",
   "trying again", "back after", "returned after", "coming back",
   "second chance", "redownloaded", "resubscribed"]

/-- `ReviewAnalysisService.detectUserType`: fixed priority order
new, then power, then returning; no hit means unknown. -/
def detectUserType (text : String) : UserType :=
  let lowerText := jsToLower text
  if NEW_USER_PATTERNS.any (fun p => jsIncludes lowerText p) then .new
  else if POWER_USER_PATTERNS.any (fun p => jsIncludes lowerText p) then .power
  else if RETURNING_USER_PATTERNS.any (fun p => jsIncludes lowerText p) then .returning
  else .unknown

/-- The `COMPETITORS` name list of `ReviewAnalysisService`, verbatim. -/
def COMPETITORS : List String :=
  ["facebook", "instagram", "tiktok", "snapchat", "twitter",
   "whatsapp", "messenger", "signal", "telegram", "discord",
   "slack", "teams", "zoom", "skype", "wechat", "line",
   "viber", "pinterest", "linkedin", "youtube", "netflix",
   "hulu", "disney", "prime", "spotify", "apple", "google",
   "amazon", "microsoft", "samsung", "huawei", "xiaomi"]

/-- `ReviewAnalysisService.detectCompetitorMentions`. -/
def detectCompetitorMentions (text : String) : List String :=
  COMPETITORS.filter (fun competitor => jsIncludes (jsToLower text) competitor)

/-- The `highSeverityTerms` list of `determineBugSeverity`. -/
def HIGH_SEVERITY_TERMS : List String :=
  ["crash", "freeze", "unusable", "broken", "lost data", "corrupt",
   "security", "privacy", "payment", "money", "charge", "stuck",
   "can't login", "can't access", "deleted", "wiped", "reset"]

/-- The `mediumSeverityTerms` list of `determineBugSeverity`. -/
def MEDIUM_SEVERITY_TERMS : List String :=
  ["slow", "lag", "delay", "glitch", "bug", "issue", "problem",
   "doesn't work", "not working", "error", "failed"]

/-- `ReviewAnalysisService.determineBugSeverity`: a high-severity term
hit or a score of at most 1 is high; a medium-term hit or a score of at
most 3 is medium; otherwise low — checked in that priority order. -/
def determineBugSeverity (text : String) (score : ℤ) : Level :=
  let lowerText := jsToLower text
  if HIGH_SEVERITY_TERMS.any (fun t => jsIncludes lowerText t) || score ≤ 1 then .high
  else if MEDIUM_SEVERITY_TERMS.any (fun t => jsIncludes lowerText t) || score ≤ 3 then .medium
  else .low

/-!
## Keyword extraction (analysis.server.ts, lines 142-165, 228-275)

`Math.log` is an explicit parameter `log : ℚ → ℚ`; the scored TF-IDF
list and the final returned term list are separate definitions so that
statements about the internal scores can be made.
-/

/-- The `AnalysisOptions` bag of `ReviewAnalysisService`: `none` models
an absent (`undefined`) property, which the `{...DEFAULT_OPTIONS,
...options}` spread replaces with the default. -/
structure AnalysisOptions where
  minKeywordLength : Option ℕ := none
  maxKeywords : Option ℕ := none
  minKeywordFrequency : Option ℕ := none
  sentimentThreshold : Option ℚ := none
  maxExamples : Option ℕ := none
deriving Repr

/-- Insertion-ordered frequency table update: bump the count of a key
that is present, append a fresh key with count 1 (a JavaScript object
used as a counter keeps property insertion order for its string keys;
all-digit tokens would in fact iterate first in JavaScript, but no
claim below depends on the iteration order of the table). -/
def bumpFreq : List (String × ℕ) → String → List (String × ℕ)
  | [], w => [(w, 1)]
  | (k, n) :: t, w => if k = w then (k, n + 1) :: t else (k, n) :: bumpFreq t w

/-- The `wordFreq` table of `extractKeywords`: counts of the tokens of
length at least `minLen`, in first-encounter order. -/
def wordFreqOf (minLen : ℕ) (tokens : List String) : List (String × ℕ) :=
  tokens.foldl (fun acc t => if minLen ≤ t.length then bumpFreq acc t else acc) []

/-- The `docFreq` count of a word: corpus documents whose lowercased
text contains the word as a substring (`doc.toLowerCase().includes(word)`). -/
def docFreqCount (docs : List String) (w : String) : ℕ :=
  (docs.filter (fun doc => jsIncludes (jsToLower doc) w)).length

/-- The scored `tfidf` list of `extractKeywords`: a word whose document
frequency exceeds half the corpus is skipped; otherwise its score is
`tf * log(docCount / (docFreq || 1))` with `tf` the count over the full
token count and `docCount = allDocuments.length || 1`. -/
def tfidfPairs (log : ℚ → ℚ) (text : String) (allDocuments : List String)
    (o : AnalysisOptions) : List (String × ℚ) :=
  let tokens := tokenize text
  let minLen := jsOrNat (o.minKeywordLength.getD 4) 4
  let wf := wordFreqOf minLen tokens
  let docCount := jsOrNat allDocuments.length 1
  wf.filterMap fun p =>
    let df := docFreqCount allDocuments p.1
    if (df : ℚ) > (docCount : ℚ) * (5/10) then none
    else
      let tf : ℚ := (p.2 : ℚ) / (tokens.length : ℚ)
      let idf := log ((docCount : ℚ) / (jsOrNat df 1 : ℚ))
      some (p.1, tf * idf)

/-- One step of a stable descending insertion by score, matching the
stable `sort((a, b) => b.score - a.score)` of the source: an element
moves ahead only of strictly smaller scores. -/
def insertScoreDesc (x : String × ℚ) : List (String × ℚ) → List (String × ℚ)
  | [] => [x]
  | y :: ys => if x.2 > y.2 then x :: y :: ys else y :: insertScoreDesc x ys

/-- Stable descending sort by score. -/
def sortScoreDesc (l : List (String × ℚ)) : List (String × ℚ) :=
  l.foldl (fun acc x => insertScoreDesc x acc) []

/-- `ReviewAnalysisService.extractKeywords`: the scored list, sorted
descending by score, cut to the hardcoded ten terms (`slice(0, 10)`). -/
def extractKeywords (log : ℚ → ℚ) (text : String) (allDocuments : List String)
    (o : AnalysisOptions) : List String :=
  ((sortScoreDesc (tfidfPairs log text allDocuments o)).take 10).map Prod.fst

lemma length_insertScoreDesc (x : String × ℚ) (l : List (String × ℚ)) :
    (insertScoreDesc x l).length = l.length + 1 := by
  induction l with
  | nil => rfl
  | cons y ys ih =>
    by_cases h : x.2 > y.2 <;> simp [insertScoreDesc, h, ih]

lemma length_sortScoreDesc_aux (l acc : List (String × ℚ)) :
    (l.foldl (fun acc x => insertScoreDesc x acc) acc).length = acc.length + l.length := by
  induction l generalizing acc with
  | nil => simp
  | cons x xs ih =>
    simp [List.foldl_cons, ih, length_insertScoreDesc]
    omega

lemma length_sortScoreDesc (l : List (String × ℚ)) :
    (sortScoreDesc l).length = l.length := by
  simpa using length_sortScoreDesc_aux l []

lemma mem_insertScoreDesc {y x : String × ℚ} {l : List (String × ℚ)}
    (h : y ∈ insertScoreDesc x l) : y = x ∨ y ∈ l := by
  induction l with
  | nil => simpa [insertScoreDesc] using h
  | cons z zs ih =>
    by_cases hc : x.2 > z.2
    · simp only [insertScoreDesc, if_pos hc, List.mem_cons] at h
      rcases h with h | h | h
      · left; exact h
      · right; simp [h]
      · right; simp [h]
    · simp only [insertScoreDesc, if_neg hc, List.mem_cons] at h
      rcases h with h | h
      · right; simp [h]
      · rcases ih h with h | h
        · left; exact h
        · right; simp [h]

lemma mem_sortScoreDesc_aux {y : String × ℚ} (l acc : List (String × ℚ))
    (h : y ∈ l.foldl (fun acc x => insertScoreDesc x acc) acc) : y ∈ acc ∨ y ∈ l := by
  induction l generalizing acc with
  | nil => simpa using h
  | cons x xs ih =>
    simp only [List.foldl_cons] at h
    rcases ih (insertScoreDesc x acc) h with h' | h'
    · rcases mem_insertScoreDesc h' with h'' | h''
      · right; simp [h'']
      · left; exact h''
    · right; simp [h']

lemma mem_sortScoreDesc {y : String × ℚ} {l : List (String × ℚ)}
    (h : y ∈ sortScoreDesc l) : y ∈ l := by
  rcases mem_sortScoreDesc_aux l [] h with h' | h'
  · simp at h'
  · exact h'

lemma mem_keys_bumpFreq {k w : String} :
    ∀ {l : List (String × ℕ)}, k ∈ (bumpFreq l w).map Prod.fst →
      k = w ∨ k ∈ l.map Prod.fst := by
  intro l
  induction l with
  | nil => simp [bumpFreq]
  | cons p t ih =>
    obtain ⟨a, b⟩ := p
    by_cases h : a = w
    · subst h
      intro hm
      simp only [bumpFreq, if_pos] at hm
      simp [bumpFreq] at hm ⊢
      tauto
    · simp only [bumpFreq, if_neg h, List.map_cons, List.mem_cons]
      intro hm
      rcases hm with hm | hm
      · right; left; exact hm
      · rcases ih hm with hm' | hm'
        · left; exact hm'
        · right; right; exact hm'

lemma wordFreqOf_keys_long (minLen : ℕ) (tokens : List String) :
    ∀ k ∈ (wordFreqOf minLen tokens).map Prod.fst, minLen ≤ k.length := by
  suffices h : ∀ (acc : List (String × ℕ)),
      (∀ k ∈ acc.map Prod.fst, minLen ≤ k.length) →
      ∀ k ∈ (tokens.foldl
              (fun acc t => if minLen ≤ t.length then bumpFreq acc t else acc) acc).map
            Prod.fst, minLen ≤ k.length by
    exact h [] (by simp)
  induction tokens with
  | nil => intro acc hacc; simpa using hacc
  | cons t ts ih =>
    intro acc hacc k hk
    simp only [List.foldl_cons] at hk
    by_cases hlen : minLen ≤ t.length
    · rw [if_pos hlen] at hk
      refine ih (bumpFreq acc t) ?_ k hk
      intro k' hk'
      rcases mem_keys_bumpFreq hk' with h' | h'
      · rw [h']; exact hlen
      · exact hacc k' h'
    · rw [if_neg hlen] at hk
      exact ih acc hacc k hk

lemma mem_tfidfPairs_key {q : String × ℚ} {log : ℚ → ℚ} {text : String}
    {docs : List String} {o : AnalysisOptions} (h : q ∈ tfidfPairs log text docs o) :
    q.1 ∈ (wordFreqOf (jsOrNat (o.minKeywordLength.getD 4) 4) (tokenize text)).map
      Prod.fst := by
  simp only [tfidfPairs, List.mem_filterMap] at h
  obtain ⟨p, hp, hfp⟩ := h
  by_cases hc : ((docFreqCount docs p.1 : ℚ) > (jsOrNat docs.length 1 : ℚ) * (5/10))
  · simp [hc] at hfp
  · simp only [if_neg hc, Option.some.injEq] at hfp
    subst hfp
    exact List.mem_map_of_mem Prod.fst hp

/-- C6 (amended). Keyword extraction never returns a term shorter than
`minKeywordLength` (default 4), and never returns more than ten terms:
the per-document cap is the hardcoded `slice(0, 10)`, not the `topK` /
`maxKeywords` option, for every logarithm model, text, corpus and
option bag. -/
theorem C6_keyword_bounds_amended (log : ℚ → ℚ) (text : String)
    (docs : List String) (o : AnalysisOptions) :
    ((extractKeywords log text docs o).all
        fun t => decide (o.minKeywordLength.getD 4 ≤ t.length)) = true
    ∧ (extractKeywords log text docs o).length ≤ 10 := by
  constructor
  · rw [List.all_eq_true]
    intro t ht
    simp only [extractKeywords, List.mem_map] at ht
    obtain ⟨q, hq, hq1⟩ := ht
    have hq' : q ∈ tfidfPairs log text docs o :=
      mem_sortScoreDesc (List.mem_of_mem_take hq)
    have hkey := mem_tfidfPairs_key hq'
    have hlong := wordFreqOf_keys_long (jsOrNat (o.minKeywordLength.getD 4) 4)
      (tokenize text) q.1 hkey
    have hle : o.minKeywordLength.getD 4 ≤ jsOrNat (o.minKeywordLength.getD 4) 4 := by
      cases h : o.minKeywordLength with
      | none => simp [jsOrNat]
      | some m =>
        simp only [Option.getD_some, jsOrNat]
        by_cases hm : m = 0 <;> simp [hm]
    rw [decide_eq_true_eq, ← hq1]
    omega
  · simp only [extractKeywords, List.length_map]
    exact List.length_take_le _ _

lemma length_filterMap_of_isSome {α β : Type} (f : α → Option β) (l : List α)
    (h : ∀ a ∈ l, (f a).isSome) : (l.filterMap f).length = l.length := by
  induction l with
  | nil => rfl
  | cons a t ih =>
    have ha := h a (by simp)
    obtain ⟨b, hb⟩ := Option.isSome_iff_exists.mp ha
    rw [List.filterMap_cons, hb]
    simp only [List.length_cons]
    rw [ih (fun a ha => h a (by simp [ha]))]

lemma tfidfPairs_length_empty_corpus (log : ℚ → ℚ) (text : String)
    (o : AnalysisOptions) :
    (tfidfPairs log text [] o).length
      = (wordFreqOf (jsOrNat (o.minKeywordLength.getD 4) 4) (tokenize text)).length := by
  simp only [tfidfPairs]
  apply length_filterMap_of_isSome
  intro p _
  by_cases hc : ((docFreqCount ([] : List String) p.1 : ℚ)
      > ((jsOrNat (List.length ([] : List String)) 1 : ℕ) : ℚ) * (5/10))
  · exfalso
    have hdf : docFreqCount ([] : List String) p.1 = 0 := rfl
    rw [hdf] at hc
    have hge : (0:ℚ)
        ≤ ((jsOrNat (List.length ([] : List String)) 1 : ℕ) : ℚ) * (5/10) := by
      positivity
    push_cast at hc
    linarith
  · simp [hc]
    exact not_lt.mp hc

/-- C6 (counterexample). With `maxKeywords := 5` (the only `topK`-like
option the service recognises) a six-word document over an empty corpus
yields six extracted terms: the claimed `topK` bound is violated, since
the per-document cut is the hardcoded `slice(0, 10)`.  On this input the
source's only logarithm applications are `Math.log(1) = 0`, so the
constant-zero `log` parameter agrees with `Math.log` here. -/
theorem C6_counterexample_topk_exceeded :
    ¬ ((extractKeywords (fun _ => 0) "alpha bravo crust delta eagle fable" []
        { maxKeywords := some 5 }).length ≤ 5) := by
  have h1 : (extractKeywords (fun _ => 0) "alpha bravo crust delta eagle fable" []
      { maxKeywords := some 5 }).length
      = min 10 (tfidfPairs (fun _ => 0) "alpha bravo crust delta eagle fable" []
          { maxKeywords := some 5 }).length := by
    simp only [extractKeywords, List.length_map, List.length_take, length_sortScoreDesc]
  have h2 := tfidfPairs_length_empty_corpus (fun _ => 0)
    "alpha bravo crust delta eagle fable" { maxKeywords := some 5 }
  have h3 : (wordFreqOf
      (jsOrNat ((({ maxKeywords := some 5 } : AnalysisOptions)).minKeywordLength.getD 4) 4)
      (tokenize "alpha bravo crust delta eagle fable")).length = 6 := by decide
  omega

/-- C8. Over a corpus of size zero or one, extraction still functions
(the model is a total function) and every internal TF-IDF score is zero:
the document count is `docs.length || 1 = 1`, every document frequency
is at most one, so each score is `tf * log 1` — for any logarithm model
with `log 1 = 0`, as for `Math.log`, every score collapses to zero. -/
theorem C8_single_doc_zero_scores (log : ℚ → ℚ) (hlog : log 1 = 0)
    (docs : List String) (hdocs : docs.length ≤ 1) (text : String)
    (o : AnalysisOptions) :
    ((tfidfPairs log text docs o).all fun p => decide (p.2 = 0)) = true := by
  rw [List.all_eq_true]
  intro p hp
  simp only [tfidfPairs, List.mem_filterMap] at hp
  obtain ⟨q, hq, hfq⟩ := hp
  by_cases hc : ((docFreqCount docs q.1 : ℚ) > (jsOrNat docs.length 1 : ℚ) * (5/10))
  · simp [hc] at hfq
  · simp only [if_neg hc, Option.some.injEq] at hfq
    have hdc : jsOrNat docs.length 1 = 1 := by
      interval_cases h : docs.length <;> simp [jsOrNat]
    have hdf : docFreqCount docs q.1 ≤ 1 :=
      le_trans (List.length_filter_le _ _) hdocs
    have hdf1 : jsOrNat (docFreqCount docs q.1) 1 = 1 := by
      interval_cases h : docFreqCount docs q.1 <;> simp [jsOrNat]
    rw [decide_eq_true_eq, ← hfq]
    simp only [hdc, hdf1]
    norm_num [hlog]

/-- C8 (witness). The zero-score property evaluated at a concrete
document over the empty corpus, with the constant-zero logarithm model
(which satisfies `log 1 = 0` like `Math.log`). -/
theorem C8_single_doc_zero_scores_witness :
    ((tfidfPairs (fun _ => 0) "good fast app" [] {}).all
      fun p => decide (p.2 = 0)) = true :=
  C8_single_doc_zero_scores (fun _ => 0) rfl [] (by decide) "good fast app" {}

/-!
## Review analyzer (analysis.server.ts, lines 511-799)

The raw `PlayStoreReview` record: the TypeScript interface declares all
fields required, but the analyzer defensively guards `text`, `userName`
and `thumbsUp` with `||` defaults, so those runtime-missable fields are
modelled as `Option`s (`none` is `undefined`); `date` likewise, since
`new Date(review.date)` is what gives it meaning.  The two
capture-group regex extractors (`extractFeatureRequests`,
`extractBugReports`) are pure functions of the content whose regex
engine is not modelled: they are explicit parameters
`extractFR extractBR : String → List String` of the analyzer, and every
theorem below holds for all values of these parameters.
-/

/-- The raw review record handed to the analyzer. -/
structure PlayStoreReview where
  id : String
  userName : Option String
  text : Option String
  score : ℤ
  thumbsUp : Option ℤ
  date : Option String
deriving Repr

/-- Numeric value of an ASCII digit. -/
def digitVal (c : Char) : Option ℕ :=
  if c.isDigit then some (c.toNat - 48) else none

/-- The `YYYY-MM-DD`-prefix fragment of the ECMAScript date parser (the
analyzer's inputs carry ISO timestamps): a well-formed prefix parses to
its day number, anything else is an Invalid Date (`none`). -/
def parseIsoDate (s : String) : Option ℤ :=
  match s.toList with
  | y1 :: y2 :: y3 :: y4 :: '-' :: m1 :: m2 :: '-' :: d1 :: d2 :: _ =>
    match digitVal y1, digitVal y2, digitVal y3, digitVal y4,
        digitVal m1, digitVal m2, digitVal d1, digitVal d2 with
    | some a, some b, some c, some d, some e, some f, some g, some h =>
      let y : ℤ := (a : ℤ) * 1000 + b * 100 + c * 10 + d
      let m : ℤ := (e : ℤ) * 10 + f
      let dd : ℤ := (g : ℤ) * 10 + h
      if 1 ≤ m ∧ m ≤ 12 ∧ 1 ≤ dd ∧ dd ≤ 31 then some (daysFromCivil y m dd)
      else none
    | _, _, _, _, _, _, _, _ => none
  | _ => none

/-- `new Date(review.date)`: an absent (`undefined`) date, like an
unparseable one, is an Invalid Date. -/
def jsParseDate : Option String → Option ℤ
  | none => none
  | some s => parseIsoDate s

/-- `ReviewAnalysisService.analyzeReview`.  All per-review analyses are
pure and total; the one partial step is `reviewDate.toISOString()` in
the record construction, which throws a `RangeError` on an Invalid
Date — modelled as the `Except.error` branch.  Note which fields are
defaulted: `userName || 'Anonymous'`, `review.text || ''`,
`review.thumbsUp || 0`; the score is passed through with no default. -/
def analyzeReview (extractFR extractBR : String → List String) (log : ℚ → ℚ)
    (review : PlayStoreReview) (allReviewTexts : List String)
    (options : AnalysisOptions) : Except String AnalyzedComment :=
  let content := jsOrString review.text ""
  let reviewDate := jsParseDate review.date
  let sentiment := analyzeSentiment content
  let keywords := extractKeywords log content allReviewTexts options
  let userType := detectUserType content
  let intentions := detectIntentions content sentiment
  let featureRequests := extractFR content
  let bugReports := extractBR content
  let competitorMentions := detectCompetitorMentions content
  let severity := determineBugSeverity content review.score
  match reviewDate with
  | none => .error "RangeError: Invalid time value"
  | some d => .ok
      { id := review.id
        userName := jsOrString review.userName "Anonymous"
        content := content
        score := review.score
        thumbsUp := jsOrInt review.thumbsUp 0
        date := d
        year := getFullYear d
        sentiment := sentiment.2
        keywords := keywords
        intentions := intentions
        userType := userType
        featureRequests := featureRequests
        bugReports := bugReports
        competitorMentions := competitorMentions
        severity := severity }

/-- `SentimentAnalysis` of the corpus.  `average` is
`sum of scores / count`; on an empty list the source computes `0/0`,
JavaScript `NaN`, modelled as `none`. -/
structure SentimentAnalysis where
  positive : ℕ
  negative : ℕ
  neutral : ℕ
  average : Option ℚ
deriving Repr, DecidableEq

/-- One entry of the corpus-level ranked keyword list. -/
structure KeywordAnalysis where
  word : String
  count : ℕ
  sentiment : ℚ
  documents : ℕ
deriving Repr, DecidableEq

/-- One entry of the per-phrase feature-request aggregation. -/
structure FeatureRequestAnalysis where
  feature : String
  count : ℕ
  examples : List String
  averageRating : ℚ
  sentiment : ℚ
deriving Repr

/-- One entry of the per-phrase bug-report aggregation. -/
structure BugReportAnalysis where
  issue : String
  count : ℕ
  examples : List String
  severity : Level
deriving Repr

/-- The four user-segment buckets. -/
structure UserSegmentAnalysis where
  newUsers : List AnalyzedComment
  powerUsers : List AnalyzedComment
  returningUsers : List AnalyzedComment
  unknownUsers : List AnalyzedComment
deriving Repr

/-- Sentiment distribution attached to a competitor. -/
structure CompetitorSentiment where
  positive : ℕ
  negative : ℕ
  neutral : ℕ
  average : ℚ
deriving Repr

/-- One competitor-mention aggregation entry. -/
structure CompetitorMentionAnalysis where
  competitor : String
  mentions : List AnalyzedComment
  sentiment : CompetitorSentiment
deriving Repr

/-- The six intention buckets of the corpus. -/
structure IntentionBuckets where
  feature_request : List AnalyzedComment
  bug_report : List AnalyzedComment
  praise : List AnalyzedComment
  complaint : List AnalyzedComment
  question : List AnalyzedComment
  comparison : List AnalyzedComment
deriving Repr

/-- The complete `AnalysisResult` (its `trends` field is the `any`-typed
placeholder `{}` in the source and is omitted). -/
structure AnalysisResult where
  comments : List AnalyzedComment
  sentiment : SentimentAnalysis
  keywords : List KeywordAnalysis
  intentions : IntentionBuckets
  featureRequests : List FeatureRequestAnalysis
  bugReports : List BugReportAnalysis
  userSegments : UserSegmentAnalysis
  competitorMentions : List CompetitorMentionAnalysis
deriving Repr

/-- One step of a stable insertion sort: `ahead x y` holds when the
comparator orders `x` strictly before `y`; an element moves ahead only
of such elements, which is the stable behaviour of `Array.prototype.sort`
with a numeric comparator. -/
def insertStable {α : Type} (ahead : α → α → Bool) (x : α) : List α → List α
  | [] => [x]
  | y :: ys => if ahead x y then x :: y :: ys else y :: insertStable ahead x ys

/-- Stable sort by a strict comparator. -/
def stableSortBy {α : Type} (ahead : α → α → Bool) (l : List α) : List α :=
  l.foldl (fun acc x => insertStable ahead x acc) []

/-- A JavaScript `Set` built from a list: the distinct elements in
first-insertion order. -/
def jsSetList (l : List String) : List String :=
  l.foldl (fun acc x => if x ∈ acc then acc else acc ++ [x]) []

/-- Accumulator of the corpus `keywordMap`. -/
structure KwAcc where
  count : ℕ
  sentiment : ℤ
  documents : ℕ
deriving Repr

/-- `if (!keywordMap.has(keyword)) keywordMap.set(keyword, zeros)`. -/
def kwEnsure (m : List (String × KwAcc)) (w : String) : List (String × KwAcc) :=
  if (m.lookup w).isSome then m else m ++ [(w, ⟨0, 0, 0⟩)]

/-- `keywordData.count++; keywordData.sentiment += comment.score`. -/
def kwBumpOcc : List (String × KwAcc) → String → ℤ → List (String × KwAcc)
  | [], _, _ => []
  | (k, a) :: t, w, s =>
    if k = w then (k, { a with count := a.count + 1, sentiment := a.sentiment + s }) :: t
    else (k, a) :: kwBumpOcc t w s

/-- `keywordData.documents++`. -/
def kwBumpDoc : List (String × KwAcc) → String → List (String × KwAcc)
  | [], _ => []
  | (k, a) :: t, w =>
    if k = w then (k, { a with documents := a.documents + 1 }) :: t
    else (k, a) :: kwBumpDoc t w

/-- One comment's contribution to the keyword map: every keyword
occurrence bumps count and sentiment; every distinct keyword of the
comment then bumps the document count. -/
def kwAddComment (m : List (String × KwAcc)) (c : AnalyzedComment) :
    List (String × KwAcc) :=
  let m1 := c.keywords.foldl (fun m w => kwBumpOcc (kwEnsure m w) w c.score) m
  (jsSetList c.keywords).foldl (fun m w => kwBumpDoc m w) m1

/-- The ranked corpus keyword list of `analyzeReviews`: filter by
minimum frequency, sort descending by count, cap at `maxKeywords`. -/
def aggregateKeywords (cs : List AnalyzedComment) (o : AnalysisOptions) :
    List KeywordAnalysis :=
  let m := cs.foldl kwAddComment []
  let entries := m.map fun p =>
    ({ word := p.1, count := p.2.count,
       sentiment := (p.2.sentiment : ℚ) / (p.2.count : ℚ),
       documents := p.2.documents } : KeywordAnalysis)
  ((stableSortBy (fun a b => decide (b.count < a.count))
      (entries.filter fun k => jsOrNat (o.minKeywordFrequency.getD 2) 2 ≤ k.count)).take
    (jsOrNat (o.maxKeywords.getD 50) 50))

/-- Accumulator of the `featureRequestMap`. -/
structure FrAcc where
  count : ℕ
  examples : List String
  ratings : List ℤ
  sentiment : ℤ
deriving Repr

/-- Ensure-and-update step of the `featureRequestMap`. -/
def frEnsure (m : List (String × FrAcc)) (f : String) : List (String × FrAcc) :=
  if (m.lookup f).isSome then m else m ++ [(f, ⟨0, [], [], 0⟩)]

/-- The per-occurrence update of a feature-request entry. -/
def frBump (maxEx : ℕ) : List (String × FrAcc) → String → AnalyzedComment →
    List (String × FrAcc)
  | [], _, _ => []
  | (k, a) :: t, f, c =>
    if k = f then
      (k, { a with
            count := a.count + 1
            examples := if a.examples.length < maxEx then a.examples ++ [c.content]
                        else a.examples
            ratings := a.ratings ++ [c.score]
            sentiment := a.sentiment + c.score }) :: t
    else (k, a) :: frBump maxEx t f c

/-- The ranked feature-request aggregation of `analyzeReviews`. -/
def aggregateFeatureRequests (cs : List AnalyzedComment) (o : AnalysisOptions) :
    List FeatureRequestAnalysis :=
  let maxEx := jsOrNat (o.maxExamples.getD 3) 3
  let m := cs.foldl
    (fun m c => c.featureRequests.foldl (fun m f => frBump maxEx (frEnsure m f) f c) m) []
  stableSortBy (fun a b => decide (b.count < a.count))
    (m.map fun p =>
      ({ feature := p.1, count := p.2.count, examples := p.2.examples,
         averageRating := ((p.2.ratings.sum : ℚ)) / (p.2.ratings.length : ℚ),
         sentiment := (p.2.sentiment : ℚ) / (p.2.count : ℚ) } : FeatureRequestAnalysis))

/-- Accumulator of the `bugReportMap`. -/
structure BrAcc where
  count : ℕ
  examples : List String
  sevLow : ℕ
  sevMedium : ℕ
  sevHigh : ℕ
  ratings : List ℤ
deriving Repr

/-- Ensure step of the `bugReportMap`. -/
def brEnsure (m : List (String × BrAcc)) (f : String) : List (String × BrAcc) :=
  if (m.lookup f).isSome then m else m ++ [(f, ⟨0, [], 0, 0, 0, []⟩)]

/-- The per-occurrence update of a bug-report entry
(`data.severity[comment.severity]++`). -/
def brBump (maxEx : ℕ) : List (String × BrAcc) → String → AnalyzedComment →
    List (String × BrAcc)
  | [], _, _ => []
  | (k, a) :: t, f, c =>
    if k = f then
      (k, { a with
            count := a.count + 1
            examples := if a.examples.length < maxEx then a.examples ++ [c.content]
                        else a.examples
            sevLow := if c.severity = .low then a.sevLow + 1 else a.sevLow
            sevMedium := if c.severity = .medium then a.sevMedium + 1 else a.sevMedium
            sevHigh := if c.severity = .high then a.sevHigh + 1 else a.sevHigh
            ratings := a.ratings ++ [c.score] }) :: t
    else (k, a) :: brBump maxEx t f c

/-- The ranked bug-report aggregation of `analyzeReviews`: the entry
severity is high when any member was high, medium when mediums
outnumber lows, low otherwise. -/
def aggregateBugReports (cs : List AnalyzedComment) (o : AnalysisOptions) :
    List BugReportAnalysis :=
  let maxEx := jsOrNat (o.maxExamples.getD 3) 3
  let m := cs.foldl
    (fun m c => c.bugReports.foldl (fun m f => brBump maxEx (brEnsure m f) f c) m) []
  stableSortBy (fun a b => decide (b.count < a.count))
    (m.map fun p =>
      ({ issue := p.1, count := p.2.count, examples := p.2.examples,
         severity :=
           if p.2.sevHigh > 0 then .high
           else if p.2.sevMedium > p.2.sevLow then .medium
           else .low } : BugReportAnalysis))

/-- Accumulator of the `competitorMentionMap`. -/
structure CmAcc where
  mentions : List AnalyzedComment
  positive : ℕ
  negative : ℕ
  neutral : ℕ
  total : ℕ
deriving Repr

/-- Ensure step of the `competitorMentionMap`. -/
def cmEnsure (m : List (String × CmAcc)) (f : String) : List (String × CmAcc) :=
  if (m.lookup f).isSome then m else m ++ [(f, ⟨[], 0, 0, 0, 0⟩)]

/-- The per-mention update of a competitor entry. -/
def cmBump : List (String × CmAcc) → String → AnalyzedComment → List (String × CmAcc)
  | [], _, _ => []
  | (k, a) :: t, f, c =>
    if k = f then
      (k, { a with
            mentions := a.mentions ++ [c]
            total := a.total + 1
            positive := if c.sentiment = .positive then a.positive + 1 else a.positive
            negative := if c.sentiment = .negative then a.negative + 1 else a.negative
            neutral := if c.sentiment ≠ .positive ∧ c.sentiment ≠ .negative
                       then a.neutral + 1 else a.neutral }) :: t
    else (k, a) :: cmBump t f c

/-- The competitor-mention aggregation of `analyzeReviews`, sorted
descending by mention count; the synthetic average maps the categories
to 5/3/1 stars. -/
def aggregateCompetitorMentions (cs : List AnalyzedComment) :
    List CompetitorMentionAnalysis :=
  let m := cs.foldl
    (fun m c => c.competitorMentions.foldl (fun m f => cmBump (cmEnsure m f) f c) m) []
  stableSortBy (fun a b => decide (b.mentions.length < a.mentions.length))
    (m.map fun p =>
      ({ competitor := p.1, mentions := p.2.mentions,
         sentiment :=
           { positive := p.2.positive, negative := p.2.negative, neutral := p.2.neutral,
             average := ((p.2.positive * 5 + p.2.neutral * 3 + p.2.negative * 1 : ℕ) : ℚ)
               / (p.2.total : ℚ) } } : CompetitorMentionAnalysis))

/-- `ReviewAnalysisService.analyzeReviews`: per-review analysis over the
shared corpus of raw texts, then the corpus-level aggregations.  A
thrown `RangeError` from any single review propagates (`Array.map`
stops at the first throw). -/
def analyzeReviews (extractFR extractBR : String → List String) (log : ℚ → ℚ)
    (reviews : List PlayStoreReview) (options : AnalysisOptions) :
    Except String AnalysisResult :=
  let allReviewTexts := reviews.map fun r => jsOrString r.text ""
  match reviews.mapM (fun r => analyzeReview extractFR extractBR log r allReviewTexts options) with
  | .error e => .error e
  | .ok cs => .ok
      { comments := cs
        sentiment :=
          { positive := (cs.filter fun c => c.sentiment = .positive).length
            negative := (cs.filter fun c => c.sentiment = .negative).length
            neutral := (cs.filter fun c => c.sentiment = .neutral).length
            average := if cs.length = 0 then none
                       else some (((cs.map (·.score)).sum : ℚ) / (cs.length : ℚ)) }
        keywords := aggregateKeywords cs options
        intentions :=
          { feature_request := cs.filter fun c => c.intentions.contains "feature_request"
            bug_report := cs.filter fun c => c.intentions.contains "bug_report"
            praise := cs.filter fun c => c.intentions.contains "praise"
            complaint := cs.filter fun c => c.intentions.contains "complaint"
            question := cs.filter fun c => c.intentions.contains "question"
            comparison := cs.filter fun c => c.intentions.contains "comparison" }
        featureRequests := aggregateFeatureRequests cs options
        bugReports := aggregateBugReports cs options
        userSegments :=
          { newUsers := cs.filter fun c => c.userType = .new
            powerUsers := cs.filter fun c => c.userType = .power
            returningUsers := cs.filter fun c => c.userType = .returning
            unknownUsers := cs.filter fun c =>
              c.userType ≠ .new ∧ c.userType ≠ .power ∧ c.userType ≠ .returning }
        competitorMentions := aggregateCompetitorMentions cs }

/-- C3 (counterexample). A review whose `date` field is missing makes
`analyzeReview` throw (`toISOString` on an Invalid Date raises
`RangeError: Invalid time value`): the date is not defaulted to the
current time, and the exception crosses the analyzer's boundary. -/
theorem C3_counterexample_missing_date_throws :
    analyzeReview (fun _ => []) (fun _ => []) (fun _ => 0)
      { id := "r1", userName := none, text := some "nice app", score := 5,
        thumbsUp := none, date := none } [] {}
    = .error "RangeError: Invalid time value" := rfl

/-- C3 (amended). For a review whose date parses, the analyzer returns
normally and recovers the missable fields locally: a missing (or empty)
username becomes `Anonymous`, missing text becomes the empty string,
missing `thumbsUp` becomes `0`; the score is passed through unchanged
(the code gives it no default).  An empty review list yields degenerate
analytics without any exception: no comments, zero sentiment counts, an
undefined (`NaN`, modelled `none`) average, and no keywords. -/
theorem C3_field_defaults_amended (extractFR extractBR : String → List String)
    (log : ℚ → ℚ) (review : PlayStoreReview) (texts : List String)
    (o : AnalysisOptions) (d : ℤ) (hd : jsParseDate review.date = some d) :
    (∃ c, analyzeReview extractFR extractBR log review texts o = .ok c
      ∧ c.userName = jsOrString review.userName "Anonymous"
      ∧ c.content = jsOrString review.text ""
      ∧ c.thumbsUp = jsOrInt review.thumbsUp 0
      ∧ c.score = review.score
      ∧ c.date = d)
    ∧ (∃ res, analyzeReviews extractFR extractBR log [] o = .ok res
      ∧ res.comments = []
      ∧ res.sentiment = { positive := 0, negative := 0, neutral := 0, average := none }
      ∧ res.keywords = []) := by
  constructor
  · simp only [analyzeReview, hd]
    exact ⟨_, rfl, rfl, rfl, rfl, rfl, rfl⟩
  · refine ⟨_, rfl, by rfl, by rfl, ?_⟩
    show aggregateKeywords [].reverse o = []
    simp [aggregateKeywords, stableSortBy]

/-- C3 (witness for the amended claim). The amended defaults evaluated
at a concrete review with a parseable date and every missable field
absent. -/
theorem C3_field_defaults_amended_witness :
    (∃ c, analyzeReview (fun _ => []) (fun _ => []) (fun _ => 0)
        { id := "r2", userName := none, text := none, score := 4,
          thumbsUp := none, date := some "2024-01-02" } [] {} = .ok c
      ∧ c.userName = jsOrString none "Anonymous"
      ∧ c.content = jsOrString none ""
      ∧ c.thumbsUp = jsOrInt none 0
      ∧ c.score = 4
      ∧ c.date = daysFromCivil 2024 1 2)
    ∧ (∃ res, analyzeReviews (fun _ => []) (fun _ => []) (fun _ => 0) [] {} = .ok res
      ∧ res.comments = []
      ∧ res.sentiment = { positive := 0, negative := 0, neutral := 0, average := none }
      ∧ res.keywords = []) :=
  C3_field_defaults_amended (fun _ => []) (fun _ => []) (fun _ => 0)
    { id := "r2", userName := none, text := none, score := 4,
      thumbsUp := none, date := some "2024-01-02" } [] {}
    (daysFromCivil 2024 1 2) (by decide)

/-!
## Classification service (classification.server.ts)

`Math.sqrt` enters only through the cosine similarity and is an
explicit parameter `sqrt : ℚ → ℚ`; every theorem below holds for all
values of that parameter.
-/

/-- Bug lifecycle status union type. -/
inductive BugStatus where
  | new
  | recurring
  | increasing
  | decreasing
deriving DecidableEq, Repr

/-- A named cluster of similar feature-request phrases. -/
structure FeatureCluster where
  id : String
  name : String
  keywords : List String
  requests : List String
  examples : List String
  count : ℕ
  averageRating : ℚ
  sentiment : ℚ
  priority : Level
deriving Repr

/-- A named cluster of similar bug-report phrases. -/
structure BugCluster where
  id : String
  name : String
  keywords : List String
  reports : List String
  examples : List String
  count : ℕ
  severity : Level
  impact : Level
  affectedVersions : Option (List String)
  status : BugStatus
deriving Repr

/-- Nested feature-comparison lists of a competitor entry. -/
structure CompetitorFeatures where
  better : List String
  worse : List String
deriving Repr

/-- One entry of the classifier's competitor analysis. -/
structure CompetitorAnalysis where
  competitor : String
  mentions : ℕ
  sentiment : ℚ
  features : CompetitorFeatures
deriving Repr

/-- The high/medium threshold pairs of `ClassificationOptions`. -/
structure Thresholds where
  high : ℕ
  medium : ℕ
deriving Repr

/-- The `ClassificationOptions` bag (`none` is an absent property,
replaced by the default through the option spread). -/
structure ClassificationOptions where
  clusterThreshold : Option ℚ := none
  minClusterSize : Option ℕ := none
  maxClusters : Option ℕ := none
  featurePriorityThreshold : Option Thresholds := none
  bugSeverityThreshold : Option Thresholds := none
  maxExamples : Option ℕ := none
deriving Repr

/-- The complete `ClassificationResult`. -/
structure ClassificationResult where
  featureClusters : List FeatureCluster
  bugClusters : List BugCluster
  competitorAnalysis : List CompetitorAnalysis
  recurringIssues : List BugCluster
  topFeatureRequests : List FeatureCluster
  criticalBugs : List BugCluster
deriving Repr

/-- The `/\W+/` tokens of a lowercased string that are longer than a
bound, the token form both similarity measures use. -/
def simTokens (minLen : ℕ) (s : String) : List String :=
  (splitDrop (fun c => !isWordCharJS c) [] (jsToLower s).toList).filter
    fun w => minLen < w.length

/-- `ClassificationService.calculateJaccardSimilarity`: intersection
size over union size of the two token sets (tokens longer than 2);
zero when either set is empty. -/
def calculateJaccardSimilarity (s1 s2 : String) : ℚ :=
  let set1 := jsSetList (simTokens 2 s1)
  let set2 := jsSetList (simTokens 2 s2)
  if set1.length = 0 ∨ set2.length = 0 then 0
  else
    let intersection := set1.filter fun x => x ∈ set2
    let union := jsSetList (set1 ++ set2)
    (intersection.length : ℚ) / (union.length : ℚ)

/-- `ClassificationService.calculateCosineSimilarity` with the square
root abstracted: term-frequency vectors over tokens longer than 2,
normalised dot product; zero when either magnitude is zero. -/
def calculateCosineSimilarity (sqrt : ℚ → ℚ) (s1 s2 : String) : ℚ :=
  let vector1 := (simTokens 2 s1).foldl (fun acc t => bumpFreq acc t) []
  let vector2 := (simTokens 2 s2).foldl (fun acc t => bumpFreq acc t) []
  let terms := jsSetList (vector1.map Prod.fst ++ vector2.map Prod.fst)
  let dotProduct : ℕ := (terms.map fun t =>
    ((vector1.lookup t).getD 0) * ((vector2.lookup t).getD 0)).sum
  let magnitude1 : ℕ := (terms.map fun t =>
    ((vector1.lookup t).getD 0) * ((vector1.lookup t).getD 0)).sum
  let magnitude2 : ℕ := (terms.map fun t =>
    ((vector2.lookup t).getD 0) * ((vector2.lookup t).getD 0)).sum
  let root1 := sqrt (magnitude1 : ℚ)
  let root2 := sqrt (magnitude2 : ℚ)
  if root1 = 0 ∨ root2 = 0 then 0
  else (dotProduct : ℚ) / (root1 * root2)

/-- `ClassificationService.calculateSimilarity`: the larger of the
Jaccard and cosine similarities. -/
def calculateSimilarity (sqrt : ℚ → ℚ) (s1 s2 : String) : ℚ :=
  max (calculateJaccardSimilarity s1 s2) (calculateCosineSimilarity sqrt s1 s2)

/-- The precomputed symmetric `similarityMatrix` as a function: ones on
the diagonal, pairwise similarity elsewhere. -/
def simAt (sqrt : ℚ → ℚ) (items : List String) (i j : ℕ) : ℚ :=
  if i = j then 1 else calculateSimilarity sqrt (items.getD i "") (items.getD j "")

/-- The average pairwise similarity between two clusters of item
indices (average link). -/
def avgClusterSim (sim : ℕ → ℕ → ℚ) (c1 c2 : List ℕ) : ℚ :=
  ((c1.flatMap fun i => c2.map fun j => sim i j).sum : ℚ)
    / ((c1.length * c2.length : ℕ) : ℚ)

/-- The scan for the most similar cluster pair: row-major over `i < j`,
keeping the first maximum (strict improvement only), starting from the
sentinel similarity `-1`. -/
def findMergePair (sim : ℕ → ℕ → ℚ) (clusters : List (List ℕ)) : ℚ × ℕ × ℕ :=
  let n := clusters.length
  (List.range n).foldl
    (fun best i =>
      (List.range n).foldl
        (fun best j =>
          if i < j then
            let s := avgClusterSim sim (clusters.getD i []) (clusters.getD j [])
            if s > best.1 then (s, i, j) else best
          else best)
        best)
    (-1, 0, 0)

/-- Replace the element at an index of a list. -/
def setIdx {α : Type} : List α → ℕ → α → List α
  | [], _, _ => []
  | _ :: t, 0, v => v :: t
  | h :: t, n + 1, v => h :: setIdx t n v

/-- Remove the element at an index of a list (`splice(j, 1)`). -/
def removeIdx {α : Type} : List α → ℕ → List α
  | [], _ => []
  | _ :: t, 0 => t
  | h :: t, n + 1 => h :: removeIdx t n

/-- One iteration of the greedy merge: `none` means the best pair fell
below the threshold and the loop breaks. -/
def mergeStep (sim : ℕ → ℕ → ℚ) (threshold : ℚ) (clusters : List (List ℕ)) :
    Option (List (List ℕ)) :=
  let best := findMergePair sim clusters
  if best.1 < threshold then none
  else
    let merged := setIdx clusters best.2.1
      (clusters.getD best.2.1 [] ++ clusters.getD best.2.2 [])
    some (removeIdx merged best.2.2)

/-- The `while (clusters.length > 1)` merge loop.  Each pass either
breaks or removes one cluster, so a fuel of the initial cluster count
(always passed below) can never be exhausted before the loop's own
exit conditions fire. -/
def clusterLoop (sim : ℕ → ℕ → ℚ) (threshold : ℚ) :
    ℕ → List (List ℕ) → List (List ℕ)
  | 0, clusters => clusters
  | fuel + 1, clusters =>
    if clusters.length > 1 then
      match mergeStep sim threshold clusters with
      | none => clusters
      | some next => clusterLoop sim threshold fuel next
    else clusters

/-- `ClassificationService.clusterSimilarItems` (the `allDocuments`
parameter is unused, as in the source). -/
def clusterSimilarItems (sqrt : ℚ → ℚ) (items : List String)
    (allDocuments : List String) (threshold : ℚ) : List (List String) :=
  if items.length = 0 then []
  else if items.length = 1 then [items]
  else
    (clusterLoop (simAt sqrt items) threshold items.length
        ((List.range items.length).map fun i => [i])).map
      fun cluster => cluster.map fun idx => items.getD idx ""

/-- `ClassificationService.extractClusterKeywords`: TF-IDF over the
concatenated cluster text (tokens longer than 3), top five terms. -/
def extractClusterKeywords (log : ℚ → ℚ) (cluster allDocuments : List String) :
    List String :=
  let combinedText := String.intercalate " " cluster
  let words := simTokens 3 combinedText
  let wf := words.foldl (fun acc w => bumpFreq acc w) []
  let docCount := jsOrNat allDocuments.length 1
  let tfidf := wf.filterMap fun p =>
    let df := docFreqCount allDocuments p.1
    if (df : ℚ) > (docCount : ℚ) * (5/10) then none
    else some (p.1, ((p.2 : ℚ) / (words.length : ℚ))
      * log ((docCount : ℚ) / (jsOrNat df 1 : ℚ)))
  ((sortScoreDesc tfidf).take 5).map Prod.fst

/-- `ClassificationService.generateClusterName`: the member phrase with
the highest keyword-hits-per-character density (strict improvement over
the first member), truncated to 50 characters with an ellipsis. -/
def generateClusterName (cluster : List String) (keywords : List String) : String :=
  let best := cluster.foldl
    (fun (best : String × ℚ) item =>
      let lowerItem := jsToLower item
      let hits : ℕ := keywords.foldl
        (fun cnt kw => if jsIncludes lowerItem (jsToLower kw) then cnt + 1 else cnt) 0
      let score : ℚ := (hits : ℚ) / (item.length : ℚ)
      if score > best.2 then (item, score) else best)
    (cluster.getD 0 "", 0)
  if best.1.length > 50 then String.mk (best.1.toList.take 50) ++ "..." else best.1

/-- `ClassificationService.determineFeaturePriority` (its `sentiment`
argument receives the cluster's average rating at the call site). -/
def determineFeaturePriority (count : ℕ) (sentiment : ℚ) (th : Thresholds) : Level :=
  if th.high ≤ count ∨ (9/2 : ℚ) ≤ sentiment then .high
  else if th.medium ≤ count ∨ (7/2 : ℚ) ≤ sentiment then .medium
  else .low

/-- `ClassificationService.determineBugImpact`. -/
def determineBugImpact (count : ℕ) (severity : Level) (ratings : List ℤ)
    (th : Thresholds) : Level :=
  let avgRating : ℚ := (ratings.sum : ℚ) / (ratings.length : ℚ)
  if th.high ≤ count ∨ severity = .high ∨ avgRating ≤ 3/2 then .high
  else if th.medium ≤ count ∨ severity = .medium ∨ avgRating ≤ 3 then .medium
  else .low

/-- `ClassificationService.detectAffectedVersions`: the known version
strings contained in some cluster phrase, as a set in first-hit order
(reports outer, versions inner). -/
def detectAffectedVersions (reports versions : List String) : List String :=
  jsSetList (reports.flatMap fun r => versions.filter fun v => jsIncludes r v)

/-- In-place append to the bucket of a key of an association map. -/
def bucketAppend {α : Type} : List (String × List α) → String → α →
    List (String × List α)
  | [], _, _ => []
  | (k, l) :: t, r, c =>
    if k = r then (k, l ++ [c]) :: t else (k, l) :: bucketAppend t r c

/-- The `requestToComments` / `reportToComments` map: for every comment
and every phrase the selector yields, ensure a bucket and push the
comment. -/
def phraseToComments (select : AnalyzedComment → List String)
    (comments : List AnalyzedComment) : List (String × List AnalyzedComment) :=
  comments.foldl
    (fun m c => (select c).foldl
      (fun m r =>
        bucketAppend (if (m.lookup r).isSome then m else m ++ [(r, [])]) r c)
      m)
    []

/-- Insertion-ordered map update (`Map.prototype.set`): an existing key
keeps its position and takes the new value, a fresh key is appended. -/
def mapSet {α : Type} : List (String × α) → String → α → List (String × α)
  | [], k, v => [(k, v)]
  | (k', v') :: t, k, v =>
    if k' = k then (k, v) :: t else (k', v') :: mapSet t k v

/-- `new Map(clusterComments.map(c => [c.id, c])).values()`: dedupe by
id, keeping the first position and the last value of each id. -/
def dedupeById (l : List AnalyzedComment) : List AnalyzedComment :=
  (l.foldl (fun acc c => mapSet acc c.id c) []).map Prod.snd

/-- `ClassificationService.classifyFeatureRequests`. -/
def classifyFeatureRequests (sqrt log : ℚ → ℚ) (comments : List AnalyzedComment)
    (options : ClassificationOptions) : List FeatureCluster :=
  let allFeatureRequests := comments.flatMap (·.featureRequests)
  let requestToComments := phraseToComments (·.featureRequests) comments
  let allTexts := comments.map (·.content)
  let clusters := clusterSimilarItems sqrt allFeatureRequests allTexts
    (jsOrRat (options.clusterThreshold.getD (6/10)) (6/10))
  let validClusters := (stableSortBy (fun a b => decide (b.length < a.length))
      (clusters.filter fun c => jsOrNat (options.minClusterSize.getD 2) 2 ≤ c.length)).take
    (jsOrNat (options.maxClusters.getD 20) 20)
  validClusters.enum.map fun p =>
    let cluster := p.2
    let keywords := extractClusterKeywords log cluster allTexts
    let name := generateClusterName cluster keywords
    let clusterComments := cluster.flatMap fun r => (requestToComments.lookup r).getD []
    let uniqueComments := dedupeById clusterComments
    let ratings := uniqueComments.map (·.score)
    let averageRating : ℚ := (ratings.sum : ℚ) / (ratings.length : ℚ)
    let sentiment : ℚ := ((uniqueComments.map fun c =>
        if c.sentiment = .positive then (1 : ℤ)
        else if c.sentiment = .negative then -1 else 0).sum : ℚ)
      / (uniqueComments.length : ℚ)
    let examples := ((stableSortBy (fun a b => decide (b.score < a.score))
        uniqueComments).take (jsOrNat (options.maxExamples.getD 3) 3)).map (·.content)
    let priority := determineFeaturePriority uniqueComments.length averageRating
      (options.featurePriorityThreshold.getD ⟨10, 5⟩)
    { id := "feature-" ++ toString p.1
      name := name
      keywords := keywords
      requests := cluster
      examples := examples
      count := uniqueComments.length
      averageRating := averageRating
      sentiment := sentiment
      priority := priority }

/-- `ClassificationService.classifyBugReports`.  The status of every
produced cluster is the constant `'new'` (the source comment reads
"simplified for now"). -/
def classifyBugReports (sqrt log : ℚ → ℚ) (comments : List AnalyzedComment)
    (appVersions : List String) (options : ClassificationOptions) : List BugCluster :=
  let allBugReports := comments.flatMap (·.bugReports)
  let reportToComments := phraseToComments (·.bugReports) comments
  let allTexts := comments.map (·.content)
  let clusters := clusterSimilarItems sqrt allBugReports allTexts
    (jsOrRat (options.clusterThreshold.getD (6/10)) (6/10))
  let validClusters := (stableSortBy (fun a b => decide (b.length < a.length))
      (clusters.filter fun c => jsOrNat (options.minClusterSize.getD 2) 2 ≤ c.length)).take
    (jsOrNat (options.maxClusters.getD 20) 20)
  validClusters.enum.map fun p =>
    let cluster := p.2
    let keywords := extractClusterKeywords log cluster allTexts
    let name := generateClusterName cluster keywords
    let clusterComments := cluster.flatMap fun r => (reportToComments.lookup r).getD []
    let uniqueComments := dedupeById clusterComments
    let ratings := uniqueComments.map (·.score)
    let severity : Level :=
      if uniqueComments.any (fun c => c.severity = .high) then .high
      else if uniqueComments.any (fun c => c.severity = .medium) then .medium
      else .low
    let impact := determineBugImpact uniqueComments.length severity ratings
      (options.bugSeverityThreshold.getD ⟨8, 3⟩)
    let examples := ((stableSortBy (fun a b => decide (a.score < b.score))
        uniqueComments).take (jsOrNat (options.maxExamples.getD 3) 3)).map (·.content)
    let affectedVersions := if appVersions.length > 0
      then some (detectAffectedVersions cluster appVersions) else none
    { id := "bug-" ++ toString p.1
      name := name
      keywords := keywords
      reports := cluster
      examples := examples
      count := uniqueComments.length
      severity := severity
      impact := impact
      affectedVersions := affectedVersions
      status := .new }

/-- `ClassificationService.classifyReviews`: the complete classification
run; its competitor analysis is the empty list in the source. -/
def classifyReviews (sqrt log : ℚ → ℚ) (comments : List AnalyzedComment)
    (appVersions : List String) (options : ClassificationOptions) :
    ClassificationResult :=
  let featureClusters := classifyFeatureRequests sqrt log comments options
  let bugClusters := classifyBugReports sqrt log comments appVersions options
  { featureClusters := featureClusters
    bugClusters := bugClusters
    competitorAnalysis := []
    recurringIssues := bugClusters.filter fun b => b.status = .recurring
    topFeatureRequests := stableSortBy (fun a b => decide (b.count < a.count))
      (featureClusters.filter fun f => f.priority = .high)
    criticalBugs := stableSortBy (fun a b => decide (b.count < a.count))
      (bugClusters.filter fun b => b.impact = .high) }

lemma mem_insertStable {α : Type} {gt : α → α → Bool} {y x : α} {l : List α}
    (h : y ∈ insertStable gt x l) : y = x ∨ y ∈ l := by
  induction l with
  | nil => simpa [insertStable] using h
  | cons z zs ih =>
    by_cases hc : gt x z
    · simp only [insertStable, if_pos hc, List.mem_cons] at h
      rcases h with h | h | h
      · left; exact h
      · right; simp [h]
      · right; simp [h]
    · simp only [insertStable, if_neg hc, List.mem_cons] at h
      rcases h with h | h
      · right; simp [h]
      · rcases ih h with h' | h'
        · left; exact h'
        · right; simp [h']

lemma mem_stableSortBy_aux {α : Type} {gt : α → α → Bool} {y : α}
    (l acc : List α) (h : y ∈ l.foldl (fun acc x => insertStable gt x acc) acc) :
    y ∈ acc ∨ y ∈ l := by
  induction l generalizing acc with
  | nil => simpa using h
  | cons x xs ih =>
    simp only [List.foldl_cons] at h
    rcases ih (insertStable gt x acc) h with h' | h'
    · rcases mem_insertStable h' with h'' | h''
      · right; simp [h'']
      · left; exact h''
    · right; simp [h']

lemma mem_stableSortBy {α : Type} {gt : α → α → Bool} {y : α} {l : List α}
    (h : y ∈ stableSortBy gt l) : y ∈ l := by
  rcases mem_stableSortBy_aux l [] h with h' | h'
  · simp at h'
  · exact h'

lemma classifyBugReports_status_new (sqrt log : ℚ → ℚ)
    (comments : List AnalyzedComment) (appVersions : List String)
    (options : ClassificationOptions) :
    ∀ b ∈ classifyBugReports sqrt log comments appVersions options,
      b.status = .new := by
  intro b hb
  simp only [classifyBugReports, List.mem_map] at hb
  obtain ⟨p, hp, hbp⟩ := hb
  rw [← hbp]

/-- C10. Every bug cluster the classifier produces has status `new`,
for every square-root and logarithm model, comment list, version list
and option bag; consequently the classifier's `recurringIssues` list is
always empty, and every cluster in `criticalBugs` also has status
`new`.  The other statuses (`recurring`/`increasing`/`decreasing`) are
assigned only to `BugTrend` values by the aggregator's
`determineBugStatus`, never to a `BugCluster`. -/
theorem C10_bug_cluster_status_always_new (sqrt log : ℚ → ℚ)
    (comments : List AnalyzedComment) (appVersions : List String)
    (options : ClassificationOptions) :
    ((classifyBugReports sqrt log comments appVersions options).all
        fun b => decide (b.status = .new)) = true
    ∧ (classifyReviews sqrt log comments appVersions options).recurringIssues = []
    ∧ ((classifyReviews sqrt log comments appVersions options).criticalBugs.all
        fun b => decide (b.status = .new)) = true := by
  refine ⟨?_, ?_, ?_⟩
  · rw [List.all_eq_true]
    intro b hb
    simp [classifyBugReports_status_new sqrt log comments appVersions options b hb]
  · show (classifyBugReports sqrt log comments appVersions options).filter
        (fun b => decide (b.status = .recurring)) = []
    rw [List.filter_eq_nil_iff]
    intro b hb
    simp [classifyBugReports_status_new sqrt log comments appVersions options b hb]
  · rw [List.all_eq_true]
    intro b hb
    have hb' : b ∈ (classifyBugReports sqrt log comments appVersions options).filter
        (fun b => decide (b.impact = .high)) := mem_stableSortBy hb
    have hb'' := List.mem_of_mem_filter hb'
    simp [classifyBugReports_status_new sqrt log comments appVersions options b hb'']

/-!
## Aggregation service (aggregation.server.ts)
-/

/-- Trend granularity union type. -/
inductive TimePeriod where
  | day
  | week
  | month
  | quarter
  | year
deriving DecidableEq, Repr

/-- Overall trend direction union type. -/
inductive TrendDir where
  | improving
  | declining
  | stable
deriving DecidableEq, Repr

/-- Per-cluster trend direction union type. -/
inductive Trend3 where
  | increasing
  | decreasing
  | stable
deriving DecidableEq, Repr

/-- The `formatDate` closure of `groupCommentsByTimePeriod`, per
granularity: the ISO date, the ISO date of the Monday-based week start,
`YYYY-MM`, `YYYY-Qn`, or the year. -/
def formatPeriodDate (tp : TimePeriod) (d : ℤ) : String :=
  match tp with
  | .day => isoDateString d
  | .week =>
    let dow := getDay d
    isoDateString (setDate d (getDate d - dow + (if dow = 0 then -6 else 1)))
  | .month =>
    let c := civilFromDays d
    toString c.1 ++ "-" ++ pad2 c.2.1
  | .quarter =>
    let c := civilFromDays d
    toString c.1 ++ "-Q" ++ toString ((c.2.1 - 1).fdiv 3 + 1)
  | .year => toString (getFullYear d)

/-- The `getNextPeriodStart` closure of `groupCommentsByTimePeriod`:
one day, seven days, one month, three months or one year backward
(month/year steps overflow through `jsMakeDay` exactly as `setMonth`
and `setFullYear` do). -/
def nextPeriodStart (tp : TimePeriod) (d : ℤ) : ℤ :=
  match tp with
  | .day => setDate d (getDate d - 1)
  | .week => setDate d (getDate d - 7)
  | .month => setMonth d (getMonth d - 1)
  | .quarter => setMonth d (getMonth d - 3)
  | .year => setFullYear d (getFullYear d - 1)

/-- The period-generation loop: `maxDataPoints` period keys, walking
backward from `now`. -/
def generatePeriods (tp : TimePeriod) (now : ℤ) : ℕ → List String
  | 0 => []
  | n + 1 => formatPeriodDate tp now :: generatePeriods tp (nextPeriodStart tp now) n

/-- The initially-empty bucket map over the generated period keys
(`groupedComments.set(periodKey, [])`, which resets a duplicate key). -/
def buildInitialBuckets (periods : List String) :
    List (String × List AnalyzedComment) :=
  periods.foldl (fun m k => mapSet m k []) []

/-- `AggregationService.groupCommentsByTimePeriod` with the current
time as an explicit argument: sort the comments newest first, generate
the period buckets, then push each comment into the bucket of its own
period key — a comment whose key has no bucket is dropped. -/
def groupCommentsByTimePeriod (comments : List AnalyzedComment) (tp : TimePeriod)
    (maxDataPoints : ℕ) (now : ℤ) : List (String × List AnalyzedComment) :=
  let sortedComments := stableSortBy (fun a b => decide (b.date < a.date)) comments
  let m0 := buildInitialBuckets (generatePeriods tp now maxDataPoints)
  sortedComments.foldl
    (fun m c =>
      let key := formatPeriodDate tp c.date
      if (m.lookup key).isSome then bucketAppend m key c else m)
    m0

/-- Code-unit-wise comparison of the default (string) `Array.sort`
comparator (ASCII range of UTF-16 order). -/
def charsLt : List Char → List Char → Bool
  | [], [] => false
  | [], _ :: _ => true
  | _ :: _, [] => false
  | a :: as, b :: bs => if a < b then true else if b < a then false else charsLt as bs

/-- String comparison of the default `Array.sort`. -/
def strLtB (a b : String) : Bool := charsLt a.toList b.toList

/-- One per-period point of the overall trend series. -/
structure TrendDataPoint where
  date : String
  positive : ℕ
  negative : ℕ
  neutral : ℕ
  total : ℕ
  average : ℚ
deriving Repr

/-- `AggregationService.generateTrendDataPoints`: the bucket keys in
ascending string order, each with its sentiment counts and guarded mean
rating. -/
def generateTrendDataPoints (grouped : List (String × List AnalyzedComment)) :
    List TrendDataPoint :=
  let sortedPeriods := stableSortBy strLtB (grouped.map Prod.fst)
  sortedPeriods.map fun period =>
    let comments := (grouped.lookup period).getD []
    { date := period
      positive := (comments.filter fun c => c.sentiment = .positive).length
      negative := (comments.filter fun c => c.sentiment = .negative).length
      neutral := (comments.filter fun c => c.sentiment = .neutral).length
      total := comments.length
      average := if comments.length > 0
        then ((comments.map (·.score)).sum : ℚ) / (comments.length : ℚ) else 0 }

/-- The position-weighted sum and weight total of a half
(`weight = index + 1`). -/
def weightedSums (l : List ℚ) : ℚ × ℚ :=
  l.enum.foldl
    (fun acc p => (acc.1 + p.2 * ((p.1 : ℚ) + 1), acc.2 + ((p.1 : ℚ) + 1)))
    (0, 0)

/-- The numeric core of `AggregationService.analyzeTrend` on the
sequence of per-bucket values: midpoint split, linearly-weighted
average of each half, percent change, `±5%` thresholds. -/
def analyzeTrendValues (values : List ℚ) : TrendDir × ℚ :=
  if values.length < 2 then (.stable, 0)
  else
    let midpoint := values.length / 2
    let firstHalf := values.take midpoint
    let secondHalf := values.drop midpoint
    let fw := weightedSums firstHalf
    let sw := weightedSums secondHalf
    let firstHalfAvg := fw.1 / fw.2
    let secondHalfAvg := sw.1 / sw.2
    let percentChange :=
      if firstHalfAvg ≠ 0 then ((secondHalfAvg - firstHalfAvg) / firstHalfAvg) * 100
      else 0
    let trend : TrendDir :=
      if percentChange > 5 then .improving
      else if percentChange < -5 then .declining
      else .stable
    (trend, percentChange)

/-- `AggregationService.analyzeTrend` (it reads only `point.average`
of each data point, and their count). -/
def analyzeTrend (dataPoints : List TrendDataPoint) : TrendDir × ℚ :=
  analyzeTrendValues (dataPoints.map (·.average))

/-- `AggregationService.determineTrend` on per-bucket counts: midpoint
split, plain (unweighted) half averages, multiplicative `×1.2` / `×0.8`
thresholds. -/
def determineTrend (counts : List ℚ) : Trend3 :=
  if counts.length < 2 then .stable
  else
    let midpoint := counts.length / 2
    let firstHalf := counts.take midpoint
    let secondHalf := counts.drop midpoint
    let firstHalfAvg := firstHalf.sum / (firstHalf.length : ℚ)
    let secondHalfAvg := secondHalf.sum / (secondHalf.length : ℚ)
    if secondHalfAvg > firstHalfAvg * (12/10) then .increasing
    else if secondHalfAvg < firstHalfAvg * (8/10) then .decreasing
    else .stable

/-- `AggregationService.determineBugStatus` on per-bucket counts. -/
def determineBugStatus (counts : List ℚ) : BugStatus :=
  if counts.length ≤ 1 then .new
  else if counts.getD 0 0 > 0 ∧ (counts.drop 1).all (fun c => decide (c = 0)) then .new
  else if determineTrend counts = .increasing then .increasing
  else if determineTrend counts = .decreasing then .decreasing
  else .recurring

/-- One per-period point of a feature trend series. -/
structure FeatureTrendPoint where
  date : String
  count : ℕ
  sentiment : ℚ
deriving Repr

/-- One feature cluster's trend series. -/
structure FeatureTrend where
  feature : String
  periods : List FeatureTrendPoint
  trend : Trend3
deriving Repr

/-- `AggregationService.generateFeatureTrends`: per bucket, the
comments mentioning any request of the cluster (each counted once),
and the `determineTrend` of the per-bucket counts. -/
def generateFeatureTrends (featureClusters : List FeatureCluster)
    (grouped : List (String × List AnalyzedComment)) : List FeatureTrend :=
  let sortedPeriods := stableSortBy strLtB (grouped.map Prod.fst)
  featureClusters.map fun cluster =>
    let periods := sortedPeriods.map fun period =>
      let comments := (grouped.lookup period).getD []
      let matched := comments.filter fun c =>
        c.featureRequests.any fun r => cluster.requests.contains r
      ({ date := period
         count := matched.length
         sentiment := if matched.length > 0
           then ((matched.map (·.score)).sum : ℚ) / (matched.length : ℚ) else 0 }
        : FeatureTrendPoint)
    { feature := cluster.name
      periods := periods
      trend := determineTrend (periods.map fun p => (p.count : ℚ)) }

/-- One per-period point of a bug trend series. -/
structure BugTrendPoint where
  date : String
  count : ℕ
  severity : Level
deriving Repr

/-- One bug cluster's trend series. -/
structure BugTrend where
  bug : String
  periods : List BugTrendPoint
  trend : Trend3
  status : BugStatus
deriving Repr

/-- `AggregationService.generateBugTrends`. -/
def generateBugTrends (bugClusters : List BugCluster)
    (grouped : List (String × List AnalyzedComment)) : List BugTrend :=
  let sortedPeriods := stableSortBy strLtB (grouped.map Prod.fst)
  bugClusters.map fun cluster =>
    let periods := sortedPeriods.map fun period =>
      let comments := (grouped.lookup period).getD []
      let matched := comments.filter fun c =>
        c.bugReports.any fun r => cluster.reports.contains r
      ({ date := period
         count := matched.length
         severity :=
           if (matched.filter fun c => c.severity = .high).length > 0 then .high
           else if (matched.filter fun c => c.severity = .medium).length > 0 then .medium
           else .low }
        : BugTrendPoint)
    let counts := periods.map fun p => (p.count : ℚ)
    { bug := cluster.name
      periods := periods
      trend := determineTrend counts
      status := determineBugStatus counts }

/-- The rating histogram (the source's `'1'..'5'` string keys are the
fields `r1..r5`). -/
structure RatingDistribution where
  r1 : ℕ
  r2 : ℕ
  r3 : ℕ
  r4 : ℕ
  r5 : ℕ
  average : ℚ
  total : ℕ
deriving Repr

/-- The clamped bucket of a score:
`Math.min(Math.max(Math.round(score), 1), 5)` (`Math.round` is the
identity on the integer star scores of the model). -/
def clampRating (s : ℤ) : ℤ := min (max s 1) 5

/-- `AggregationService.calculateRatingDistribution`. -/
def calculateRatingDistribution (comments : List AnalyzedComment) :
    RatingDistribution :=
  { r1 := (comments.filter fun c => clampRating c.score = 1).length
    r2 := (comments.filter fun c => clampRating c.score = 2).length
    r3 := (comments.filter fun c => clampRating c.score = 3).length
    r4 := (comments.filter fun c => clampRating c.score = 4).length
    r5 := (comments.filter fun c => clampRating c.score = 5).length
    average := if comments.length > 0
      then ((comments.map (·.score)).sum : ℚ) / (comments.length : ℚ) else 0
    total := comments.length }

/-- The user-segment histogram. -/
structure UserSegmentDistribution where
  newUsers : ℕ
  powerUsers : ℕ
  returningUsers : ℕ
  unknownUsers : ℕ
  total : ℕ
deriving Repr

/-- `AggregationService.calculateUserSegmentDistribution`. -/
def calculateUserSegmentDistribution (comments : List AnalyzedComment) :
    UserSegmentDistribution :=
  { newUsers := (comments.filter fun c => c.userType = .new).length
    powerUsers := (comments.filter fun c => c.userType = .power).length
    returningUsers := (comments.filter fun c => c.userType = .returning).length
    unknownUsers := (comments.filter fun c => c.userType = .unknown).length
    total := comments.length }

/-- Insight kind union type. -/
inductive InsightType where
  | feature
  | bug
  | sentiment
  | competitor
  | user
deriving DecidableEq, Repr

/-- An actionable insight (the optional `data` payload of the source is
`any`-typed and omitted; no claim concerns it). -/
structure Insight where
  id : String
  type : InsightType
  title : String
  description : String
  priority : Level
  recommendation : String
deriving Repr

/-- The overall trend block. -/
structure TrendAnalysis where
  timePeriod : TimePeriod
  dataPoints : List TrendDataPoint
  trend : TrendDir
  percentChange : ℚ
deriving Repr

/-- Decimal rendering of `Number.prototype.toFixed(1)` for the
nonnegative magnitudes the insight texts print (binary-float rounding
differences of the source are immaterial to every claim). -/
def toFixed1 (q : ℚ) : String :=
  let scaled := ⌊q * 10 + 1/2⌋
  toString (scaled.fdiv 10) ++ "." ++ toString (scaled.emod 10)

/-- Rendering of a trend direction as the source's string literal. -/
def trendDirName : TrendDir → String
  | .improving => "improving"
  | .declining => "declining"
  | .stable => "stable"

/-- Rendering of a level as the source's string literal. -/
def levelName : Level → String
  | .low => "low"
  | .medium => "medium"
  | .high => "high"

/-- The sentiment-trend insight (pushed only when the overall trend is
not stable). -/
def sentimentInsight (t : TrendAnalysis) : Insight :=
  { id := "sentiment-trend"
    type := .sentiment
    title := "Overall sentiment is " ++ trendDirName t.trend
    description := "The overall sentiment has "
      ++ (if t.trend = .improving then "increased" else "decreased")
      ++ " by " ++ toFixed1 |t.percentChange| ++ "% over the analyzed period."
    priority := if |t.percentChange| > 15 then .high else .medium
    recommendation := if t.trend = .improving
      then "Continue the positive momentum by maintaining recent improvements."
      else "Investigate the causes of declining sentiment and address user concerns." }

/-- One top-feature insight (`feature-${index}`). -/
def featureInsight (p : ℕ × FeatureCluster) : Insight :=
  { id := "feature-" ++ toString p.1
    type := .feature
    title := "High demand for: " ++ p.2.name
    description := toString p.2.count
      ++ " users have requested this feature with an average rating of "
      ++ toFixed1 p.2.averageRating ++ "."
    priority := p.2.priority
    recommendation :=
      "Consider prioritizing the development of this feature to improve user satisfaction." }

/-- One critical-bug insight (`bug-${index}`), always high priority. -/
def bugInsight (p : ℕ × BugCluster) : Insight :=
  { id := "bug-" ++ toString p.1
    type := .bug
    title := "Critical issue: " ++ p.2.name
    description := toString p.2.count ++ " users have reported this issue with "
      ++ levelName p.2.severity ++ " severity."
    priority := .high
    recommendation := "Prioritize fixing this issue to improve user experience and ratings." }

/-- One competitor insight: produced only when the entry has at least
five mentions (`competitor-${index}`, the index within the
`slice(0, 2)`). -/
def competitorInsight (p : ℕ × CompetitorAnalysis) : Option Insight :=
  if 5 ≤ p.2.mentions then
    some
      { id := "competitor-" ++ toString p.1
        type := .competitor
        title := "Users comparing with " ++ p.2.competitor
        description := toString p.2.mentions ++ " users mentioned " ++ p.2.competitor
          ++ " in their reviews."
        priority := if p.2.mentions > 20 then .high else .medium
        recommendation := if p.2.sentiment > 7/2
          then "Analyze what users prefer about your app compared to "
            ++ p.2.competitor ++ "."
          else "Investigate features from " ++ p.2.competitor ++ " that users prefer." }
  else none

/-- The user-segment skew insight (one of two mutually exclusive
shapes, or none). -/
def userSegmentInsights (analysis : AnalysisResult) : List Insight :=
  let us := analysis.userSegments
  if us.newUsers.length > us.powerUsers.length * 2 then
    [{ id := "user-new"
       type := .user
       title := "High proportion of new users"
       description := toString us.newUsers.length ++ " new users compared to "
         ++ toString us.powerUsers.length ++ " power users."
       priority := .medium
       recommendation := "Focus on improving onboarding and first-time user experience." }]
  else if us.powerUsers.length > us.newUsers.length * 2 then
    [{ id := "user-power"
       type := .user
       title := "Strong base of power users"
       description := toString us.powerUsers.length ++ " power users compared to "
         ++ toString us.newUsers.length ++ " new users."
       priority := .medium
       recommendation :=
         "Consider adding advanced features to retain power users while improving acquisition." }]
  else []

/-- The candidate insight list of `generateInsights`, in push order,
before the priority sort and the `maxInsights` cut: sentiment trend,
top-3 features, top-3 critical bugs, the first two competitor entries
with at least five mentions, then the user-segment skew. -/
def insightCandidates (analysis : AnalysisResult)
    (classification : ClassificationResult) (trendAnalysis : TrendAnalysis) :
    List Insight :=
  (if trendAnalysis.trend ≠ .stable then [sentimentInsight trendAnalysis] else [])
    ++ (classification.topFeatureRequests.take 3).enum.map featureInsight
    ++ (classification.criticalBugs.take 3).enum.map bugInsight
    ++ (classification.competitorAnalysis.take 2).enum.filterMap competitorInsight
    ++ userSegmentInsights analysis

/-- The numeric rank of the priority sort (`{high: 0, medium: 1, low: 2}`). -/
def priorityRank : Level → ℕ
  | .high => 0
  | .medium => 1
  | .low => 2

/-- `AggregationService.generateInsights`: candidates, stably sorted by
priority rank, cut to `maxInsights`. -/
def generateInsights (analysis : AnalysisResult)
    (classification : ClassificationResult) (trendAnalysis : TrendAnalysis)
    (maxInsights : ℕ) : List Insight :=
  (stableSortBy (fun a b => decide (priorityRank a.priority < priorityRank b.priority))
      (insightCandidates analysis classification trendAnalysis)).take maxInsights

/-- The export blobs.  Only the CSV blob is modelled; the JSON blob is
a `JSON.stringify` serialization no claim concerns. -/
structure ExportData where
  csv : String
deriving Repr

/-- `AggregationService.generateExportData` (CSV part). -/
def generateExportData (comments : List AnalyzedComment) : ExportData :=
  { csv := generateExportCsv comments }

/-- The sentiment distribution of the summary. -/
structure SentimentDistribution where
  positive : ℕ
  negative : ℕ
  neutral : ℕ
deriving Repr

/-- The summary block of the aggregated results. -/
structure AggregatedSummary where
  totalReviews : ℕ
  averageRating : ℚ
  ratingDistribution : RatingDistribution
  sentimentDistribution : SentimentDistribution
  userSegmentDistribution : UserSegmentDistribution
deriving Repr

/-- The trends block of the aggregated results. -/
structure TrendsBlock where
  overall : TrendAnalysis
  features : List FeatureTrend
  bugs : List BugTrend
deriving Repr

/-- One compiled competitor insight of the aggregated results. -/
structure CompetitorInsightOut where
  competitor : String
  mentions : ℕ
  sentiment : ℚ
  strengths : List String
  weaknesses : List String
deriving Repr

/-- The top-level `AggregatedResults`. -/
structure AggregatedResults where
  summary : AggregatedSummary
  trends : TrendsBlock
  topFeatures : List FeatureCluster
  criticalBugs : List BugCluster
  competitorInsights : List CompetitorInsightOut
  insights : List Insight
  exportData : ExportData
deriving Repr

/-- The `AggregationOptions` bag. -/
structure AggregationOptions where
  timePeriod : Option TimePeriod := none
  maxDataPoints : Option ℕ := none
  maxInsights : Option ℕ := none
  maxFeatures : Option ℕ := none
  maxBugs : Option ℕ := none
  includeExportData : Option Bool := none
deriving Repr

/-- `AggregationService.aggregateResults` with the current time as an
explicit argument. -/
def aggregateResults (now : ℤ) (comments : List AnalyzedComment)
    (analysis : AnalysisResult) (classification : ClassificationResult)
    (options : AggregationOptions) : AggregatedResults :=
  let timePeriod := options.timePeriod.getD .week
  let maxDataPoints := jsOrNat (options.maxDataPoints.getD 12) 12
  let groupedComments := groupCommentsByTimePeriod comments timePeriod maxDataPoints now
  let trendDataPoints := generateTrendDataPoints groupedComments
  let ta := analyzeTrend trendDataPoints
  let featureTrends := generateFeatureTrends classification.topFeatureRequests groupedComments
  let bugTrends := generateBugTrends classification.criticalBugs groupedComments
  let ratingDistribution := calculateRatingDistribution comments
  let userSegmentDistribution := calculateUserSegmentDistribution comments
  let insights := generateInsights analysis classification
    { timePeriod := timePeriod, dataPoints := trendDataPoints,
      trend := ta.1, percentChange := ta.2 }
    (jsOrNat (options.maxInsights.getD 10) 10)
  let exportData := if options.includeExportData.getD true
    then generateExportData comments else { csv := "" }
  let competitorInsights := classification.competitorAnalysis.map fun c =>
    ({ competitor := c.competitor, mentions := c.mentions, sentiment := c.sentiment,
       strengths := c.features.better, weaknesses := c.features.worse }
      : CompetitorInsightOut)
  { summary :=
      { totalReviews := comments.length
        averageRating := ratingDistribution.average
        ratingDistribution := ratingDistribution
        sentimentDistribution :=
          { positive := analysis.sentiment.positive
            negative := analysis.sentiment.negative
            neutral := analysis.sentiment.neutral }
        userSegmentDistribution := userSegmentDistribution }
    trends :=
      { overall :=
          { timePeriod := timePeriod, dataPoints := trendDataPoints,
            trend := ta.1, percentChange := ta.2 }
        features := featureTrends.take (jsOrNat (options.maxFeatures.getD 5) 5)
        bugs := bugTrends.take (jsOrNat (options.maxBugs.getD 5) 5) }
    topFeatures := classification.topFeatureRequests.take
      (jsOrNat (options.maxFeatures.getD 5) 5)
    criticalBugs := classification.criticalBugs.take (jsOrNat (options.maxBugs.getD 5) 5)
    competitorInsights := competitorInsights
    insights := insights
    exportData := exportData }

/-!
## C5: the per-cluster trend rule versus the weighted rule
-/

/-- What `determineTrend` actually implements, stated the way the
specification phrases trend rules: split at the midpoint, compare the
plain (unweighted) means of the two halves against multiplicative
`×1.2` / `×0.8` thresholds — written with cross-multiplied sums, which
is equivalent since both halves are nonempty. -/
def unweightedHalfTrendSpec (counts : List ℚ) : Trend3 :=
  if counts.length < 2 then .stable
  else
    let m := counts.length / 2
    let earlier := counts.take m
    let later := counts.drop m
    if later.sum * (earlier.length : ℚ) * 10 > 12 * earlier.sum * (later.length : ℚ)
    then .increasing
    else if later.sum * (earlier.length : ℚ) * 10 < 8 * earlier.sum * (later.length : ℚ)
    then .decreasing
    else .stable

/-- C5 (counterexample). The per-cluster trend rule is not the weighted
`±5%` rule: on the bucket counts `[10, 11]` the weighted-half-split
rule of `analyzeTrend` yields a percent change of `+10%`, hence
`improving`/increasing, while `determineTrend` compares `11` against
`10 × 1.2` and `10 × 0.8` and yields `stable`. -/
theorem C5_counterexample_trend_rules_differ :
    determineTrend [10, 11] = .stable
    ∧ (analyzeTrendValues [10, 11]).1 = .improving := by
  constructor
  · norm_num [determineTrend, List.take, List.drop]
  · norm_num [analyzeTrendValues, weightedSums, List.take, List.drop,
      List.enum, List.enumFrom]

/-- C5 (amended). The per-cluster increasing/decreasing/stable trend of
`determineTrend` is extensionally the unweighted-half-means rule with
multiplicative `×1.2` / `×0.8` thresholds — not the linearly-weighted
`±5%`-percent-change rule that `analyzeTrend` applies to the overall
rating series. -/
theorem C5_unweighted_trend_amended (counts : List ℚ) :
    determineTrend counts = unweightedHalfTrendSpec counts := by
  by_cases hlen : counts.length < 2
  · simp [determineTrend, unweightedHalfTrendSpec, hlen]
  · have h2 : 2 ≤ counts.length := not_lt.mp hlen
    have hm1 : 1 ≤ counts.length / 2 := by omega
    have hm2 : counts.length / 2 < counts.length := by omega
    have htake : (counts.take (counts.length / 2)).length = counts.length / 2 := by
      simp [List.length_take]
      omega
    have hdrop : (counts.drop (counts.length / 2)).length
        = counts.length - counts.length / 2 := by
      simp [List.length_drop]
    have hepos : (0 : ℚ) < ((counts.take (counts.length / 2)).length : ℚ) := by
      rw [htake]
      exact_mod_cast hm1
    have hlpos : (0 : ℚ) < ((counts.drop (counts.length / 2)).length : ℚ) := by
      rw [hdrop]
      have : 1 ≤ counts.length - counts.length / 2 := by omega
      exact_mod_cast this
    simp only [determineTrend, unweightedHalfTrendSpec, if_neg hlen]
    set Se := (counts.take (counts.length / 2)).sum with hSe
    set Sl := (counts.drop (counts.length / 2)).sum with hSl
    set e := ((counts.take (counts.length / 2)).length : ℚ) with he
    set l := ((counts.drop (counts.length / 2)).length : ℚ) with hl
    have hinc : (Sl / l > Se / e * (12/10)) ↔ (Sl * e * 10 > 12 * Se * l) := by
      rw [gt_iff_lt, div_mul_eq_mul_div, div_lt_div_iff₀ hepos hlpos, gt_iff_lt]
      constructor <;> intro h <;> nlinarith
    have hdec : (Sl / l < Se / e * (8/10)) ↔ (Sl * e * 10 < 8 * Se * l) := by
      rw [div_mul_eq_mul_div, div_lt_div_iff₀ hlpos hepos]
      constructor <;> intro h <;> nlinarith
    by_cases hi : Sl / l > Se / e * (12/10)
    · rw [if_pos hi, if_pos (hinc.mp hi)]
    · rw [if_neg hi, if_neg (fun hc => hi (hinc.mpr hc))]
      by_cases hd : Sl / l < Se / e * (8/10)
      · rw [if_pos hd, if_pos (hdec.mp hd)]
      · rw [if_neg hd, if_neg (fun hc => hd (hdec.mpr hc))]

/-!
## C9: competitor insights
-/

/-- A degenerate analysis result with no comments and no segments, used
as a concrete insight-generation input. -/
def cexAnalysis : AnalysisResult :=
  { comments := []
    sentiment := { positive := 0, negative := 0, neutral := 0, average := none }
    keywords := []
    intentions := ⟨[], [], [], [], [], []⟩
    featureRequests := []
    bugReports := []
    userSegments := ⟨[], [], [], []⟩
    competitorMentions := [] }

/-- A concrete competitor entry. -/
def cexCompetitor (name : String) (n : ℕ) : CompetitorAnalysis :=
  { competitor := name, mentions := n, sentiment := 3, features := ⟨[], []⟩ }

/-- A classification result whose only content is three competitor
entries: two with a single mention each, and a third with seven. -/
def cexClassification : ClassificationResult :=
  { featureClusters := []
    bugClusters := []
    competitorAnalysis :=
      [cexCompetitor "alpha" 1, cexCompetitor "beta" 1, cexCompetitor "gamma" 7]
    recurringIssues := []
    topFeatureRequests := []
    criticalBugs := [] }

/-- A stable overall trend (so no sentiment insight is generated). -/
def cexTrend : TrendAnalysis :=
  { timePeriod := .week, dataPoints := [], trend := .stable, percentChange := 0 }

/-- C9 (counterexample). A classification result containing a
competitor entry with seven mentions (at index 2) for which insight
generation, with a cap of ten and no other insight competing, produces
no insight at all: `generateInsights` only examines the first two
competitor entries (`slice(0, 2)`), so the ≥5-mention entry contributes
nothing — the claimed "subject only to the priority sort and the
maxInsights cap" fails. -/
theorem C9_counterexample_third_competitor_dropped :
    (∃ c ∈ cexClassification.competitorAnalysis, 5 ≤ c.mentions)
    ∧ generateInsights cexAnalysis cexClassification cexTrend 10 = [] := by
  constructor
  · exact ⟨cexCompetitor "gamma" 7, by simp [cexClassification], by norm_num [cexCompetitor]⟩
  · rfl

/-- C9 (amended). A competitor entry with at least five mentions
produces a competitor insight (before the priority sort and the
`maxInsights` cut) only when it is among the FIRST TWO entries of the
classification's competitor analysis — those entries do contribute;
and a classification produced by `classifyReviews` always carries an
empty competitor analysis, so end-to-end runs generate no competitor
insights at all. -/
theorem C9_competitor_insights_amended :
    (∀ (analysis : AnalysisResult) (classification : ClassificationResult)
        (trendAnalysis : TrendAnalysis) (i : ℕ) (c : CompetitorAnalysis),
        (i, c) ∈ (classification.competitorAnalysis.take 2).enum →
        5 ≤ c.mentions →
        ∃ ins ∈ insightCandidates analysis classification trendAnalysis,
          ins.type = .competitor
          ∧ ins.id = "competitor-" ++ toString i
          ∧ ins.title = "Users comparing with " ++ c.competitor)
    ∧ (∀ (sqrt log : ℚ → ℚ) (comments : List AnalyzedComment)
        (appVersions : List String) (options : ClassificationOptions),
        (classifyReviews sqrt log comments appVersions options).competitorAnalysis = []) := by
  constructor
  · intro analysis classification trendAnalysis i c hmem h5
    have hsome : competitorInsight (i, c) = some
        { id := "competitor-" ++ toString i
          type := .competitor
          title := "Users comparing with " ++ c.competitor
          description := toString c.mentions ++ " users mentioned "
            ++ c.competitor ++ " in their reviews."
          priority := if c.mentions > 20 then Level.high else Level.medium
          recommendation := if c.sentiment > 7/2
            then "Analyze what users prefer about your app compared to "
              ++ c.competitor ++ "."
            else "Investigate features from " ++ c.competitor
              ++ " that users prefer." } := by
      simp [competitorInsight, h5]
    refine ⟨{ id := "competitor-" ++ toString i
              type := .competitor
              title := "Users comparing with " ++ c.competitor
              description := toString c.mentions ++ " users mentioned "
                ++ c.competitor ++ " in their reviews."
              priority := if c.mentions > 20 then Level.high else Level.medium
              recommendation := if c.sentiment > 7/2
                then "Analyze what users prefer about your app compared to "
                  ++ c.competitor ++ "."
                else "Investigate features from " ++ c.competitor
                  ++ " that users prefer." }, ?_, rfl, rfl, rfl⟩
    have hmemD := List.mem_filterMap.mpr ⟨(i, c), hmem, hsome⟩
    simp only [insightCandidates]
    exact List.mem_append_left _ (List.mem_append_right _ hmemD)
  · intro sqrt log comments appVersions options
    rfl

/-!
## C4: generated period buckets
-/

lemma length_generatePeriods (tp : TimePeriod) (now : ℤ) (n : ℕ) :
    (generatePeriods tp now n).length = n := by
  induction n generalizing now with
  | zero => rfl
  | succ n ih => simp [generatePeriods, ih]

lemma length_insertStable {α : Type} (gt : α → α → Bool) (x : α) (l : List α) :
    (insertStable gt x l).length = l.length + 1 := by
  induction l with
  | nil => rfl
  | cons y ys ih =>
    by_cases h : gt x y <;> simp [insertStable, h, ih]

lemma length_stableSortBy_aux {α : Type} (gt : α → α → Bool) (l acc : List α) :
    (l.foldl (fun acc x => insertStable gt x acc) acc).length
      = acc.length + l.length := by
  induction l generalizing acc with
  | nil => simp
  | cons x xs ih =>
    simp [List.foldl_cons, ih, length_insertStable]
    omega

lemma length_stableSortBy {α : Type} (gt : α → α → Bool) (l : List α) :
    (stableSortBy gt l).length = l.length := by
  simpa using length_stableSortBy_aux gt l []

lemma mem_mapSet {α : Type} {kv : String × α} :
    ∀ {m : List (String × α)} {k : String} {v : α},
      kv ∈ mapSet m k v → kv = (k, v) ∨ kv ∈ m := by
  intro m
  induction m with
  | nil =>
    intro k v h
    simpa [mapSet] using h
  | cons p t ih =>
    intro k v h
    obtain ⟨k', v'⟩ := p
    by_cases hk : k' = k
    · simp only [mapSet, if_pos hk, List.mem_cons] at h
      rcases h with h | h
      · left; exact h
      · right; simp [h]
    · simp only [mapSet, if_neg hk, List.mem_cons] at h
      rcases h with h | h
      · right; simp [h]
      · rcases ih h with h' | h'
        · left; exact h'
        · right; simp [h']

lemma mem_keys_mapSet {α : Type} {x : String} :
    ∀ {m : List (String × α)} {k : String} {v : α},
      x ∈ (mapSet m k v).map Prod.fst → x = k ∨ x ∈ m.map Prod.fst := by
  intro m k v h
  simp only [List.mem_map] at h
  obtain ⟨kv, hkv, hx⟩ := h
  rcases mem_mapSet hkv with h' | h'
  · left; rw [← hx, h']
  · right; rw [← hx]; exact List.mem_map_of_mem Prod.fst h'

lemma length_mapSet_le {α : Type} (m : List (String × α)) (k : String) (v : α) :
    (mapSet m k v).length ≤ m.length + 1 := by
  induction m with
  | nil => simp [mapSet]
  | cons p t ih =>
    obtain ⟨k', v'⟩ := p
    by_cases hk : k' = k <;> simp [mapSet, hk] <;> omega

lemma buildInitialBuckets_aux_values (ps : List String)
    (acc : List (String × List AnalyzedComment))
    (hacc : ∀ kv ∈ acc, kv.2 = ([] : List AnalyzedComment)) :
    ∀ kv ∈ ps.foldl (fun m k => mapSet m k []) acc, kv.2 = [] := by
  induction ps generalizing acc with
  | nil => simpa using hacc
  | cons p pt ih =>
    simp only [List.foldl_cons]
    refine ih (mapSet acc p []) ?_
    intro kv hkv
    rcases mem_mapSet hkv with h | h
    · rw [h]
    · exact hacc kv h

lemma buildInitialBuckets_aux_keys (ps : List String)
    (acc : List (String × List AnalyzedComment)) :
    ∀ x ∈ (ps.foldl (fun m k => mapSet m k []) acc).map Prod.fst,
      x ∈ acc.map Prod.fst ∨ x ∈ ps := by
  induction ps generalizing acc with
  | nil =>
    intro x hx
    exact Or.inl (by simpa using hx)
  | cons p pt ih =>
    intro x hx
    simp only [List.foldl_cons] at hx
    rcases ih (mapSet acc p []) x hx with h | h
    · rcases mem_keys_mapSet h with h' | h'
      · right; simp [h']
      · left; exact h'
    · right; simp [h]

lemma buildInitialBuckets_aux_length (ps : List String)
    (acc : List (String × List AnalyzedComment)) :
    (ps.foldl (fun m k => mapSet m k []) acc).length ≤ acc.length + ps.length := by
  induction ps generalizing acc with
  | nil => simp
  | cons p pt ih =>
    simp only [List.foldl_cons, List.length_cons]
    calc (pt.foldl (fun m k => mapSet m k []) (mapSet acc p [])).length
        ≤ (mapSet acc p []).length + pt.length := ih (mapSet acc p [])
      _ ≤ (acc.length + 1) + pt.length := by
          have := length_mapSet_le acc p ([] : List AnalyzedComment)
          omega
      _ = acc.length + (pt.length + 1) := by omega

lemma keys_bucketAppend {α : Type} (m : List (String × List α)) (k : String) (c : α) :
    (bucketAppend m k c).map Prod.fst = m.map Prod.fst := by
  induction m with
  | nil => rfl
  | cons p t ih =>
    obtain ⟨k', l⟩ := p
    by_cases hk : k' = k <;> simp [bucketAppend, hk, ih]

lemma bucketAppend_pres {P : String → AnalyzedComment → Prop}
    {k : String} {c : AnalyzedComment} :
    ∀ {m : List (String × List AnalyzedComment)},
      (∀ kv ∈ m, ∀ x ∈ kv.2, P kv.1 x) → P k c →
      ∀ kv ∈ bucketAppend m k c, ∀ x ∈ kv.2, P kv.1 x := by
  intro m
  induction m with
  | nil =>
    intro _ _ kv hkv
    simp [bucketAppend] at hkv
  | cons p t ih =>
    intro hm hc kv hkv x hx
    obtain ⟨k', l⟩ := p
    by_cases hk : k' = k
    · rw [show bucketAppend ((k', l) :: t) k c = (k', l ++ [c]) :: t from by
        simp [bucketAppend, hk]] at hkv
      rcases List.mem_cons.mp hkv with h | h
      · subst h
        rcases List.mem_append.mp hx with h' | h'
        · exact hm (k', l) (by simp) x h'
        · have hxc : x = c := by simpa using h'
          rw [hxc]
          show P k' c
          rw [hk]
          exact hc
      · exact hm kv (List.mem_cons_of_mem _ h) x hx
    · rw [show bucketAppend ((k', l) :: t) k c = (k', l) :: bucketAppend t k c from by
        simp [bucketAppend, hk]] at hkv
      rcases List.mem_cons.mp hkv with h | h
      · subst h
        exact hm (k', l) (by simp) x hx
      · exact ih (fun kv h => hm kv (List.mem_cons_of_mem _ h)) hc kv h x hx

lemma group_fold_inv (tp : TimePeriod) (cs : List AnalyzedComment) :
    ∀ (m : List (String × List AnalyzedComment)),
      (∀ kv ∈ m, ∀ x ∈ kv.2, formatPeriodDate tp x.date = kv.1) →
      ∀ kv ∈ cs.foldl
          (fun m c =>
            let key := formatPeriodDate tp c.date
            if (m.lookup key).isSome then bucketAppend m key c else m)
          m,
        ∀ x ∈ kv.2, formatPeriodDate tp x.date = kv.1 := by
  induction cs with
  | nil =>
    intro m hm
    simpa using hm
  | cons c cs ih =>
    intro m hm
    simp only [List.foldl_cons]
    rcases h : (m.lookup (formatPeriodDate tp c.date)).isSome with _ | _
    · simp only [h, Bool.false_eq_true, if_false]
      exact ih m hm
    · simp only [h, if_true]
      exact ih _ (@bucketAppend_pres (fun k x => formatPeriodDate tp x.date = k)
        (formatPeriodDate tp c.date) c m hm rfl)

lemma group_fold_keys (tp : TimePeriod) (cs : List AnalyzedComment) :
    ∀ (m : List (String × List AnalyzedComment)),
      (cs.foldl
          (fun m c =>
            let key := formatPeriodDate tp c.date
            if (m.lookup key).isSome then bucketAppend m key c else m)
          m).map Prod.fst
        = m.map Prod.fst := by
  induction cs with
  | nil => intro m; rfl
  | cons c cs ih =>
    intro m
    simp only [List.foldl_cons]
    rcases h : (m.lookup (formatPeriodDate tp c.date)).isSome with _ | _
    · simp only [h, Bool.false_eq_true, if_false]
      exact ih m
    · simp only [h, if_true]
      rw [ih (bucketAppend m (formatPeriodDate tp c.date) c)]
      exact keys_bucketAppend m _ c

lemma groupCommentsByTimePeriod_key_eq (comments : List AnalyzedComment)
    (tp : TimePeriod) (N : ℕ) (now : ℤ) :
    ∀ kv ∈ groupCommentsByTimePeriod comments tp N now, ∀ x ∈ kv.2,
      formatPeriodDate tp x.date = kv.1 := by
  refine group_fold_inv tp _ _ ?_
  intro kv hkv x hx
  have := buildInitialBuckets_aux_values (generatePeriods tp now N) [] (by simp) kv hkv
  rw [this] at hx
  simp at hx

lemma groupCommentsByTimePeriod_keys_sub (comments : List AnalyzedComment)
    (tp : TimePeriod) (N : ℕ) (now : ℤ) :
    ∀ kv ∈ groupCommentsByTimePeriod comments tp N now,
      kv.1 ∈ generatePeriods tp now N := by
  intro kv hkv
  have hk : kv.1 ∈ (groupCommentsByTimePeriod comments tp N now).map Prod.fst :=
    List.mem_map_of_mem Prod.fst hkv
  rw [groupCommentsByTimePeriod, group_fold_keys] at hk
  rcases buildInitialBuckets_aux_keys (generatePeriods tp now N) [] kv.1 hk with h | h
  · simp at h
  · exact h

lemma length_groupCommentsByTimePeriod (comments : List AnalyzedComment)
    (tp : TimePeriod) (N : ℕ) (now : ℤ) :
    (groupCommentsByTimePeriod comments tp N now).length ≤ N := by
  have hkeys := group_fold_keys tp
    (stableSortBy (fun a b => decide (b.date < a.date)) comments)
    (buildInitialBuckets (generatePeriods tp now N))
  have hlen : (groupCommentsByTimePeriod comments tp N now).length
      = (buildInitialBuckets (generatePeriods tp now N)).length := by
    have := congrArg List.length hkeys
    simpa [groupCommentsByTimePeriod] using this
  rw [hlen]
  calc (buildInitialBuckets (generatePeriods tp now N)).length
      ≤ 0 + (generatePeriods tp now N).length :=
        buildInitialBuckets_aux_length (generatePeriods tp now N) []
    _ = N := by simp [length_generatePeriods]

lemma clampRating_mem (s : ℤ) : 1 ≤ clampRating s ∧ clampRating s ≤ 5 :=
  ⟨le_min (le_max_right _ _) (by norm_num), min_le_right _ _⟩

lemma filter_clampRating_partition (comments : List AnalyzedComment) :
    (comments.filter fun c => clampRating c.score = 1).length
      + (comments.filter fun c => clampRating c.score = 2).length
      + (comments.filter fun c => clampRating c.score = 3).length
      + (comments.filter fun c => clampRating c.score = 4).length
      + (comments.filter fun c => clampRating c.score = 5).length
    = comments.length := by
  induction comments with
  | nil => rfl
  | cons c t ih =>
    obtain ⟨h1, h5⟩ := clampRating_mem c.score
    simp only [List.filter_cons]
    interval_cases h : clampRating c.score <;> simp [h] <;> omega

/-- C4 (counterexample). With monthly granularity and the current time
2026-05-31, two generated periods collide: stepping one month back from
May 31 lands on "April 31", which ECMAScript date arithmetic normalises
to May 1, so both period keys are `2026-05` — and the resulting trend
series has one data point, not the claimed `maxDataPoints = 2`. -/
theorem C4_counterexample_month_end_key_collision :
    generatePeriods .month (daysFromCivil 2026 5 31) 2 = ["2026-05", "2026-05"]
    ∧ (generateTrendDataPoints
        (groupCommentsByTimePeriod [] .month 2 (daysFromCivil 2026 5 31))).length
      = 1 := by
  constructor
  · decide
  · decide

/-- C4 (amended). The aggregator generates exactly `maxDataPoints`
period KEYS walking backward from the current time, but duplicate keys
(possible for the month/quarter granularities at month ends, as the
counterexample shows) collapse in the bucket map, so the trend data
points number at most — not always exactly — `maxDataPoints`.  The
dropping and the summary-stat parts of the claim hold: every comment
sitting in a bucket sits in the bucket of its own period key, which is
always among the generated keys (so a comment whose key was not
generated is in no bucket and appears in no trend data point), while
`totalReviews` and the rating distribution of the summary count every
comment regardless. -/
theorem C4_trend_buckets_amended (tp : TimePeriod) (N : ℕ) (now : ℤ)
    (comments : List AnalyzedComment) :
    (generatePeriods tp now N).length = N
    ∧ (generateTrendDataPoints (groupCommentsByTimePeriod comments tp N now)).length ≤ N
    ∧ (∀ kv ∈ groupCommentsByTimePeriod comments tp N now, ∀ c ∈ kv.2,
        formatPeriodDate tp c.date = kv.1
        ∧ formatPeriodDate tp c.date ∈ generatePeriods tp now N)
    ∧ (∀ (analysis : AnalysisResult) (classification : ClassificationResult)
        (options : AggregationOptions),
        (aggregateResults now comments analysis classification
            options).summary.totalReviews = comments.length
        ∧ (aggregateResults now comments analysis classification
            options).summary.ratingDistribution.total = comments.length
        ∧ (aggregateResults now comments analysis classification
              options).summary.ratingDistribution.r1
          + (aggregateResults now comments analysis classification
              options).summary.ratingDistribution.r2
          + (aggregateResults now comments analysis classification
              options).summary.ratingDistribution.r3
          + (aggregateResults now comments analysis classification
              options).summary.ratingDistribution.r4
          + (aggregateResults now comments analysis classification
              options).summary.ratingDistribution.r5
          = comments.length) := by
  refine ⟨length_generatePeriods tp now N, ?_, ?_, ?_⟩
  · calc (generateTrendDataPoints (groupCommentsByTimePeriod comments tp N now)).length
        = (groupCommentsByTimePeriod comments tp N now).length := by
          simp [generateTrendDataPoints, length_stableSortBy]
      _ ≤ N := length_groupCommentsByTimePeriod comments tp N now
  · intro kv hkv c hc
    have h1 := groupCommentsByTimePeriod_key_eq comments tp N now kv hkv c hc
    have h2 := groupCommentsByTimePeriod_keys_sub comments tp N now kv hkv
    exact ⟨h1, h1 ▸ h2⟩
  · intro analysis classification options
    exact ⟨rfl, rfl, filter_clampRating_partition comments⟩

end PlayAnalysis
